import Mathlib

/-!
# Power monitor: device liveness state machine

A shallow embedding of `main.go` of the power monitor: the two in-memory maps
guarded by the mutex `mu` (`devices`, `states`), the three SQL tables
(`devices`, `events`, `subscriptions`), the ping handler, the monitor sweep,
the notifier, the status and history queries, the device-management handlers,
the rendering of durations and the bootstrap code.

Conventions of the embedding.

* A `time.Time` is the integer number of nanoseconds elapsed since Go's zero
  time (`time.Time{}`); a `time.Duration` is an integer number of nanoseconds.
  `Time.Sub` saturates at the bounds of `int64`, as in Go.
* Every reading of the clock (`time.Now()`) made while one request, or one
  iteration of the monitor loop, is served is the single instant `now` that the
  operation receives as an argument.
* A Go map is an association list; a lookup returns the first binding of the
  key.  The operations do not require the keys to be distinct, they preserve
  distinctness, and the theorems that need it assume it.
* Database statements always succeed (the source ignores their errors).
* A timestamp is stored as the text that go-sqlite3 writes for a `time.Time`:
  the local date and time of the host followed by its UTC offset. `ORDER BY
  timestamp` compares these texts; the local zone of the host is a `Zone`, a
  parameter of every query that orders by timestamp.
* The `float64` operations behind `Duration.Seconds`, `Minutes` and `Hours` are
  computed exactly: every operation rounds to the nearest value with a
  significand of 53 bits, ties to even.
* The goroutines that `monitor` starts for a transition (`saveEvent` and the
  notification) run at once, in the order of the transitions.
* The answers of the Telegram API and of the file system to one notification
  are given by a `TelegramEnv`; a handler reports the requests it attempted.
-/

namespace PowerMonitor

/-! ## Time -/

/-- Go `time.Time`: nanoseconds since the zero time. -/
abbrev Time := Int

/-- Go `time.Duration`: a number of nanoseconds (an `int64`). -/
abbrev Duration := Int

/-- The zero time, `time.Time{}`. -/
def zeroTime : Time := 0

/-- Go `time.Second`. -/
def Second : Duration := 1000000000

/-- Go `maxDuration`, `1<<63 - 1`. -/
def maxDuration : Duration := 9223372036854775807

/-- Go `minDuration`, `-1 << 63`. -/
def minDuration : Duration := -9223372036854775808

/-- Two's complement wrap-around of an integer to `int64`. -/
def wrapInt64 (x : Int) : Int :=
  (x + 9223372036854775808) % 18446744073709551616 - 9223372036854775808

/-- Go `t.Sub(u)`: the difference `t - u`, or the maximum (minimum) duration
when the difference does not fit a `Duration`. -/
def timeSub (t u : Time) : Duration :=
  if t - u > maxDuration then maxDuration
  else if t - u < minDuration then minDuration
  else t - u

/-- Go `time.Since(t)` evaluated at the instant `now`: `now.Sub(t)`. -/
def timeSince (now t : Time) : Duration := timeSub now t

/-- The constant `timeout = 90 * time.Second`. -/
def timeout : Duration := 90 * Second

/-! ## Data model -/

/-- The struct `DeviceConfig`. -/
structure DeviceConfig where
  ID : String
  Name : String
  ChatID : String
  BotToken : String
  Configured : Bool
  OwnerEmail : String
  WifiSSID : String
  Paused : Bool
  Timeout : Int
  deriving DecidableEq, Repr

/-- The struct `DeviceState`. -/
structure DeviceState where
  LastPing : Time
  IsDown : Bool
  DownSince : Time
  UpSince : Time
  deriving DecidableEq, Repr

/-- A row of the table `devices` (the columns that `saveDevice` writes). -/
structure DeviceRow where
  id : String
  name : String
  chat_id : String
  bot_token : String
  owner_email : String
  wifi_ssid : String
  paused : Bool
  timeout : Int
  deriving DecidableEq, Repr

/-- A row of the table `events`, without its autoincrement id: rows are kept
in insertion order. -/
structure EventRow where
  device_id : String
  event_type : String
  timestamp : Time
  duration_seconds : Option Int
  deriving DecidableEq, Repr

/-- The mutable state of the process: the maps `devices` and `states` and the
three tables of the database. -/
structure World where
  devices : List (String × DeviceConfig)
  states : List (String × DeviceState)
  dbDevices : List DeviceRow
  dbEvents : List EventRow
  dbSubscriptions : List (String × String)
  deriving DecidableEq, Repr

/-! ## Go maps as association lists -/

/-- The map read `m[k]` with its presence flag. -/
def mapGet {β : Type} (m : List (String × β)) (k : String) : Option β :=
  match m with
  | [] => none
  | (k', v) :: rest => if k' = k then some v else mapGet rest k

/-- The map write `m[k] = v`: replaces the binding of `k` or adds one. -/
def mapSet {β : Type} (m : List (String × β)) (k : String) (v : β) : List (String × β) :=
  match m with
  | [] => [(k, v)]
  | (k', v') :: rest => if k' = k then (k, v) :: rest else (k', v') :: mapSet rest k v

/-- The map deletion `delete(m, k)`. -/
def mapDelete {β : Type} (m : List (String × β)) (k : String) : List (String × β) :=
  m.filter (fun kv => decide (kv.1 ≠ k))

/-- The keys of a map, in iteration order. -/
def mapKeys {β : Type} (m : List (String × β)) : List String := m.map Prod.fst

/-! ## Timeout policy -/

/-- The function `getDeviceTimeout`: `time.Duration(d.Timeout) * time.Second`
(an `int64` product) when `d.Timeout > 0`, the constant `timeout` otherwise. -/
def getDeviceTimeout (d : DeviceConfig) : Duration :=
  if d.Timeout > 0 then wrapInt64 (d.Timeout * Second) else timeout

/-! ## Persistence -/

/-- The row that `saveDevice` writes for a configuration. -/
def deviceRow (d : DeviceConfig) : DeviceRow :=
  { id := d.ID, name := d.Name, chat_id := d.ChatID, bot_token := d.BotToken,
    owner_email := d.OwnerEmail, wifi_ssid := d.WifiSSID, paused := d.Paused,
    timeout := d.Timeout }

/-- The function `saveDevice`: `INSERT OR REPLACE INTO devices`, keyed by the
primary key `id`. -/
def saveDevice (rows : List DeviceRow) (d : DeviceConfig) : List DeviceRow :=
  rows.filter (fun r => decide (r.id ≠ d.ID)) ++ [deviceRow d]

/-- The function `saveEvent`: the comparison with the last event type only
logs; the row is inserted in every case. -/
def saveEvent (rows : List EventRow) (deviceID eventType : String) (ts : Time)
    (durationSec : Int) : List EventRow :=
  rows ++ [{ device_id := deviceID, event_type := eventType, timestamp := ts,
             duration_seconds := some durationSec }]

/-- The local time zone of the host (`time.Local`): the UTC offset, in minutes
east of Greenwich, that is in force at each instant. -/
abbrev Zone := Time → Int

/-- The local wall-clock reading of an instant, in nanoseconds: what the date
and time fields of the stored text of the instant show. -/
def wallClock (zone : Zone) (t : Time) : Int := t + zone t * (60 * Second)

/-- The order of the texts `+hh:mm` and `-hh:mm` of two UTC offsets, compared
byte by byte as SQLite compares texts: `+` sorts before `-`, and behind the
same sign the greater magnitude is the greater text. -/
def offsetTextAfter (a b : Int) : Bool :=
  if a < 0 then (if b < 0 then decide (-a > -b) else true)
  else (if b < 0 then false else decide (a > b))

/-- The stored timestamp of the instant `a` sorts after that of the instant `b`.
The driver go-sqlite3 stores a `time.Time` as the text
`2006-01-02 15:04:05.999999999-07:00` of its own location, which for
`time.Now()` is the local zone of the host, and `ORDER BY timestamp` compares
these texts: first the local date and time, whose text order is the order of
the wall-clock readings (for the years 0000 to 9999), then the offset. -/
def storedAfter (zone : Zone) (a b : Time) : Bool :=
  decide (wallClock zone a > wallClock zone b) ||
    (decide (wallClock zone a = wallClock zone b) && offsetTextAfter (zone a) (zone b))

/-- The newer of two rows for `ORDER BY timestamp DESC`: the second replaces the
first only when its stored timestamp sorts after that of the first. SQL leaves
the choice among equal stored timestamps open; here the row inserted first is
kept. -/
def newerEvent (zone : Zone) (best : Option EventRow) (e : EventRow) : Option EventRow :=
  match best with
  | none => some e
  | some b => if storedAfter zone e.timestamp b.timestamp then some e else some b

/-- The query `SELECT ... FROM events WHERE device_id = ? ORDER BY timestamp
DESC LIMIT 1`: the row of the device whose stored timestamp sorts last, if
any. The timestamp read back from the row is the instant that was written. -/
def lastEvent (zone : Zone) (rows : List EventRow) (deviceID : String) : Option EventRow :=
  (rows.filter (fun e => decide (e.device_id = deviceID))).foldl (newerEvent zone) none

/-! ## Bootstrap -/

/-- The function `loadLastState`: the state starts as down since `now` with a
zero last ping; a last event of type `down` sets `IsDown` and `DownSince`, any
other last event only sets `UpSince`. -/
def loadLastState (zone : Zone) (rows : List EventRow) (deviceID : String) (now : Time) :
    DeviceState :=
  let state : DeviceState :=
    { IsDown := true, DownSince := now, LastPing := zeroTime, UpSince := zeroTime }
  match lastEvent zone rows deviceID with
  | none => state
  | some ev =>
    if ev.event_type = "down" then
      { state with IsDown := true, DownSince := ev.timestamp }
    else
      { state with UpSince := ev.timestamp }

/-- The loop of `main` over `devices`: `states[deviceID] = loadLastState(deviceID)`
for every key of the map, starting from the given `states`. -/
def bootstrapStates (zone : Zone) (rows : List EventRow) (now : Time) (keys : List String)
    (states : List (String × DeviceState)) : List (String × DeviceState) :=
  keys.foldl (fun st deviceID => mapSet st deviceID (loadLastState zone rows deviceID now))
    states

/-- The bootstrap part of `main` after `loadDevices`: the map `states` is filled
from the last persisted event of every device of `devices`. -/
def bootstrap (zone : Zone) (w : World) (now : Time) : World :=
  { w with states := bootstrapStates zone w.dbEvents now (mapKeys w.devices) w.states }

/-! ## Ping handling -/

/-- The values that `pingHandler` carries out of its critical section. -/
structure PingResult where
  world : World
  config : DeviceConfig
  wasDown : Bool
  downTime : Time
  deriving DecidableEq, Repr

/-- The critical section of `pingHandler` (from `mu.Lock()` to `mu.Unlock()`):
auto-registration of an unknown device, lazy creation of its state, and the
ping transition. `wasDown` is the spec's `occurred`. -/
def recordPing (w : World) (deviceID : String) (now : Time) : PingResult :=
  let reg : DeviceConfig × World :=
    match mapGet w.devices deviceID with
    | some config => (config, w)
    | none =>
      let config : DeviceConfig :=
        { ID := deviceID, Name := deviceID, ChatID := "", BotToken := "",
          Configured := false, OwnerEmail := "", WifiSSID := "", Paused := false,
          Timeout := 0 }
      (config, { w with devices := mapSet w.devices deviceID config,
                        dbDevices := saveDevice w.dbDevices config })
  let config := reg.1
  let w1 := reg.2
  let state : DeviceState :=
    match mapGet w1.states deviceID with
    | some state => state
    | none => { LastPing := zeroTime, IsDown := false, DownSince := zeroTime, UpSince := now }
  let wasDown := state.IsDown
  let downTime := state.DownSince
  let state1 : DeviceState := { state with LastPing := now }
  let state2 : DeviceState := { state1 with IsDown := false }
  let state3 : DeviceState := if wasDown then { state2 with UpSince := now } else state2
  { world := { w1 with states := mapSet w1.states deviceID state3 },
    config := config, wasDown := wasDown, downTime := downTime }

/-- The spec's `outageDuration`: `time.Since(downTime)` in `pingHandler`. -/
def outageDuration (r : PingResult) (now : Time) : Duration := timeSince now r.downTime

/-- The device id that `pingHandler` reads from the query: `default` when the
parameter `device` is empty. -/
def pingDeviceID (device : String) : String :=
  if device = "" then "default" else device

/-- A run of pings, each a device id and its instant, from a world: the final
world and, for every ping in order, the device id and the `wasDown` it saw. -/
def runPings (w : World) (pings : List (String × Time)) : World × List (String × Bool) :=
  match pings with
  | [] => (w, [])
  | (deviceID, now) :: rest =>
    let r := recordPing w deviceID now
    let out := runPings r.world rest
    (out.1, (deviceID, r.wasDown) :: out.2)

/-! ## Monitor sweep -/

/-- A transition to down found by the monitor: the arguments of its
`saveEvent` call and whether the notification is sent. -/
structure DownTransition where
  deviceID : String
  upDuration : Duration
  notify : Bool
  deriving DecidableEq, Repr

/-- The body of the loop of `monitor` over `states`, for one entry. -/
def sweepState (devices : List (String × DeviceConfig)) (now : Time) (deviceID : String)
    (state : DeviceState) : DeviceState × Option DownTransition :=
  match mapGet devices deviceID with
  | none => (state, none)
  | some config =>
    if !state.IsDown && decide (timeSince now state.LastPing > getDeviceTimeout config) then
      let state1 : DeviceState := { state with IsDown := true }
      let state2 : DeviceState := { state1 with DownSince := state1.LastPing }
      let upDuration := timeSub state2.DownSince state2.UpSince
      (state2, some { deviceID := deviceID, upDuration := upDuration,
                      notify := config.Configured && !config.Paused })
    else (state, none)

/-- The states after one iteration of the monitor loop. -/
def sweepStates (devices : List (String × DeviceConfig)) (now : Time)
    (states : List (String × DeviceState)) : List (String × DeviceState) :=
  states.map (fun kv => (kv.1, (sweepState devices now kv.1 kv.2).1))

/-- The transitions found by one iteration of the monitor loop, in the
iteration order of `states`. -/
def sweepTransitions (devices : List (String × DeviceConfig)) (now : Time)
    (states : List (String × DeviceState)) : List DownTransition :=
  states.filterMap (fun kv => (sweepState devices now kv.1 kv.2).2)

/-- One iteration of `monitor` under the lock, at the instant `now`: the new
world and the transitions to persist and notify. -/
def sweep (w : World) (now : Time) : World × List DownTransition :=
  ({ w with states := sweepStates w.devices now w.states },
   sweepTransitions w.devices now w.states)

/-- A step of the liveness state machine: a ping of a device or an iteration of
the monitor, each at its instant. The mutex orders the steps. -/
inductive LivenessOp where
  | ping (deviceID : String) (now : Time)
  | sweep (now : Time)
  deriving DecidableEq, Repr

/-- A run of pings and monitor iterations from a world: the final world and the
transitions that the iterations of the monitor found, in order. -/
def runOps (w : World) (ops : List LivenessOp) : World × List DownTransition :=
  match ops with
  | [] => (w, [])
  | LivenessOp.ping deviceID now :: rest => runOps (recordPing w deviceID now).world rest
  | LivenessOp.sweep now :: rest =>
    let out := runOps (sweep w now).1 rest
    (out.1, (sweep w now).2 ++ out.2)

/-! ## Device management -/

/-- The body of a `PUT /api/my-devices/<id>` request after JSON decoding: a
string field that is absent decodes to the empty string, `Paused` and `Timeout`
are pointers and are `none` when absent. -/
structure PutData where
  Name : String
  BotToken : String
  ChatID : String
  WifiSSID : String
  Paused : Option Bool
  Timeout : Option Int
  deriving DecidableEq, Repr

/-- The request methods that `myDeviceHandler` distinguishes. -/
inductive Method where
  | PUT
  | DELETE
  | other
  deriving DecidableEq, Repr

/-- The outcome of a handler: the world it leaves, the status codes of its
`http.Error` calls in order, and whether it ended in a nil-pointer dereference
(which the HTTP server recovers from, after the deferred `mu.Unlock()`). -/
structure HandlerResult where
  world : World
  errors : List Nat
  panicked : Bool
  deriving DecidableEq, Repr

/-- The clamp of the `PUT` branch: `if t < 30 { t = 30 }; if t > 300 { t = 300 }`. -/
def clampTimeout (t : Int) : Int :=
  let t1 := if t < 30 then 30 else t
  if t1 > 300 then 300 else t1

/-- The field updates of the `PUT` branch of `myDeviceHandler` on the
configuration `d`. -/
def applyPut (d : DeviceConfig) (data : PutData) : DeviceConfig :=
  let d1 := if data.Name ≠ "" then { d with Name := data.Name } else d
  let d2 :=
    if data.BotToken ≠ "" ∨ data.ChatID ≠ "" then
      { d1 with BotToken := data.BotToken, ChatID := data.ChatID,
                Configured := decide (data.BotToken ≠ "") && decide (data.ChatID ≠ "") }
    else d1
  let d3 := if data.WifiSSID ≠ "" then { d2 with WifiSSID := data.WifiSSID } else d2
  let d4 := match data.Paused with
    | some p => { d3 with Paused := p }
    | none => d3
  match data.Timeout with
  | some t => { d4 with Timeout := clampTimeout t }
  | none => d4

/-- The function `myDeviceHandler`, for the session email `email` (empty when
there is no valid session) and the device id `id` taken from the path. The
three `http.Error` calls are not followed by a `return`, so they do not stop
the handler; with no entry `devices[id]` the pointer `d` is nil and the `PUT`
branch ends in a nil dereference before it has written anything. -/
def myDeviceHandler (w : World) (email id : String) (method : Method) (data : PutData) :
    HandlerResult :=
  let e1 : List Nat := if email = "" then [401] else []
  let e2 : List Nat := if id = "" then [400] else []
  let e3 : List Nat :=
    match mapGet w.devices id with
    | none => [404]
    | some d => if d.OwnerEmail ≠ email then [404] else []
  match method with
  | Method.PUT =>
    match mapGet w.devices id with
    | none => { world := w, errors := e1 ++ e2 ++ e3, panicked := true }
    | some d =>
      let d1 := applyPut d data
      { world := { w with devices := mapSet w.devices id d1,
                          dbDevices := saveDevice w.dbDevices d1 },
        errors := e1 ++ e2 ++ e3, panicked := false }
  | Method.DELETE =>
    { world := { w with devices := mapDelete w.devices id,
                        states := mapDelete w.states id,
                        dbDevices := w.dbDevices.filter (fun r => decide (r.id ≠ id)),
                        dbEvents := w.dbEvents.filter (fun e => decide (e.device_id ≠ id)),
                        dbSubscriptions :=
                          w.dbSubscriptions.filter (fun s => decide (s.2 ≠ id)) },
      errors := e1 ++ e2 ++ e3, panicked := false }
  | Method.other => { world := w, errors := e1 ++ e2 ++ e3 ++ [405], panicked := false }

/-- The statement `INSERT OR IGNORE INTO subscriptions (email, device_id)`. -/
def addSubscription (subs : List (String × String)) (email deviceID : String) :
    List (String × String) :=
  if (email, deviceID) ∈ subs then subs else subs ++ [(email, deviceID)]

/-- The function `claimDeviceHandler`, for the session email `email` and the
query parameters `device` and `name`. -/
def claimDeviceHandler (w : World) (email deviceID deviceName : String) : World :=
  if email = "" then w
  else if deviceID = "" then w
  else
    let reg : DeviceConfig × World :=
      match mapGet w.devices deviceID with
      | some d => (d, w)
      | none =>
        let d : DeviceConfig :=
          { ID := deviceID, Name := deviceName, ChatID := "", BotToken := "",
            Configured := false, OwnerEmail := "", WifiSSID := "", Paused := false,
            Timeout := 0 }
        (d, { w with devices := mapSet w.devices deviceID d,
                     states := mapSet w.states deviceID
                       { LastPing := zeroTime, IsDown := false, DownSince := zeroTime,
                         UpSince := zeroTime } })
    let d := reg.1
    let w1 := reg.2
    let subs :=
      if d.OwnerEmail ≠ "" ∧ d.OwnerEmail ≠ email then
        addSubscription w1.dbSubscriptions d.OwnerEmail deviceID
      else w1.dbSubscriptions
    let d1 := { d with OwnerEmail := email }
    let d2 := if deviceName ≠ "" then { d1 with Name := deviceName } else d1
    let d3 := { d2 with WifiSSID := "" }
    { w1 with devices := mapSet w1.devices deviceID d3,
              dbDevices := saveDevice w1.dbDevices d3,
              dbSubscriptions := subs }

/-- The pre-registration of `manifestHandler`, for the session email
`ownerEmail` and the query parameters `device`, `name`, `bot_token`, `chat_id`. -/
def manifestHandler (w : World) (ownerEmail device name botToken chatID : String)
    (now : Time) : World :=
  if name ≠ "" ∧ device ≠ "" then
    match mapGet w.devices device with
    | some _ => w
    | none =>
      let d : DeviceConfig :=
        { ID := device, Name := name, ChatID := chatID, BotToken := botToken,
          Configured := decide (botToken ≠ "") && decide (chatID ≠ ""),
          OwnerEmail := ownerEmail, WifiSSID := "", Paused := false, Timeout := 0 }
      { w with devices := mapSet w.devices device d,
               states := mapSet w.states device
                 { LastPing := zeroTime, IsDown := false, DownSince := zeroTime,
                   UpSince := now },
               dbDevices := saveDevice w.dbDevices d }
  else w

/-- The in-process operations that create or modify a device configuration. -/
inductive ConfigOp where
  | ping (device : String) (now : Time)
  | claim (email deviceID deviceName : String)
  | manifest (ownerEmail device name botToken chatID : String) (now : Time)
  | myDevice (email id : String) (method : Method) (data : PutData)
  deriving DecidableEq, Repr

/-- The world after one operation on the device configurations. -/
def applyConfigOp (w : World) (op : ConfigOp) : World :=
  match op with
  | ConfigOp.ping device now => (recordPing w (pingDeviceID device) now).world
  | ConfigOp.claim email deviceID deviceName => claimDeviceHandler w email deviceID deviceName
  | ConfigOp.manifest ownerEmail device name botToken chatID now =>
    manifestHandler w ownerEmail device name botToken chatID now
  | ConfigOp.myDevice email id method data => (myDeviceHandler w email id method data).world

/-- The timeout policy of a stored `Timeout`: the sentinel 0 or a number of
seconds within the bounds. -/
def TimeoutOK (t : Int) : Prop := t = 0 ∨ (30 ≤ t ∧ t ≤ 300)

instance (t : Int) : Decidable (TimeoutOK t) := by
  unfold TimeoutOK; infer_instance

/-- The timeout policy holds of every configuration of the map `devices`. -/
def TimeoutPolicy (w : World) : Prop := ∀ kv ∈ w.devices, TimeoutOK kv.2.Timeout

/-- The keys of the map `states` are distinct, as those of a Go map are. -/
def StatesWF (w : World) : Prop := (mapKeys w.states).Nodup

instance (w : World) : Decidable (TimeoutPolicy w) := by
  unfold TimeoutPolicy; infer_instance

instance (w : World) : Decidable (StatesWF w) := by
  unfold StatesWF; infer_instance

/-! ## Sample worlds -/

/-- The world of a process with no device and an empty database. -/
def emptyWorld : World :=
  { devices := [], states := [], dbDevices := [], dbEvents := [], dbSubscriptions := [] }

/-- The world after the unknown device `d1` has pinged at instant 0. -/
def pingedWorld : World := (recordPing emptyWorld "d1" 0).world

/-- The world after `owner@example.com` has claimed the device `d1` of
`pingedWorld`. -/
def claimedWorld : World := claimDeviceHandler pingedWorld "owner@example.com" "d1" "Home"

/-- The decoded request body that carries only the field `timeout`, with the
value `v`. -/
def timeoutPut (v : Int) : PutData :=
  { Name := "", BotToken := "", ChatID := "", WifiSSID := "", Paused := none,
    Timeout := some v }

/-- The world `claimedWorld` with two persisted events of `d1`: an `up` event
at instant 100 and a later `down` event at instant 200. -/
def outageWorld : World :=
  { claimedWorld with
    dbEvents := saveEvent (saveEvent [] "d1" "up" 100 0) "d1" "down" 200 100 }

/-! ## Floating point -/

/-- A finite `float64` value, the dyadic number `mant * 2 ^ exp`. -/
structure F64 where
  mant : Int
  exp : Int
  deriving DecidableEq, Repr

/-- The number of binary digits of `n`, computed with the given fuel. -/
def bitLength (fuel n : Nat) : Nat :=
  match fuel with
  | 0 => 0
  | fuel + 1 => if n = 0 then 0 else bitLength fuel (n / 2) + 1

/-- The integer part of the binary logarithm of `n` (0 for `n = 0`). -/
def log2Floor (n : Nat) : Nat := bitLength n n - 1

/-- The numerator and denominator of `a / den / 2 ^ s` as natural numbers. -/
def scaleRatio (a den : Nat) (s : Int) : Nat × Nat :=
  if s ≥ 0 then (a, den * 2 ^ s.toNat) else (a * 2 ^ (-s).toNat, den)

/-- The rounding of IEEE 754 binary64 arithmetic, to nearest with ties to even,
of the number `num / den * 2 ^ exp` (for `den > 0`), with a significand of 53
bits. The exponent range is not bounded: the values that durations produce are
neither subnormal nor out of range. -/
def roundRatio (num : Int) (den : Nat) (exp : Int) : F64 :=
  if num = 0 then { mant := 0, exp := 0 }
  else
    let a := num.natAbs
    let s0 : Int := (log2Floor a : Int) - (log2Floor den : Int) - 52
    let p0 := scaleRatio a den s0
    let s : Int := if p0.1 / p0.2 < 2 ^ 52 then s0 - 1 else s0
    let p := scaleRatio a den s
    let q := p.1 / p.2
    let r := p.1 % p.2
    let m : Nat :=
      if 2 * r > p.2 then q + 1
      else if 2 * r = p.2 then q + q % 2
      else q
    { mant := if num < 0 then -(m : Int) else (m : Int), exp := s + exp }

/-- The conversion `float64(n)` of an integer. -/
def F64.ofInt (n : Int) : F64 := roundRatio n 1 0

/-- The quotient `x / y` of `float64` values, for `y` not zero. -/
def F64.div (x y : F64) : F64 :=
  roundRatio (if y.mant < 0 then -x.mant else x.mant) y.mant.natAbs (x.exp - y.exp)

/-- The sum `x + y` of `float64` values. -/
def F64.add (x y : F64) : F64 :=
  let e := min x.exp y.exp
  roundRatio (x.mant * 2 ^ (x.exp - e).toNat + y.mant * 2 ^ (y.exp - e).toNat) 1 e

/-- The conversion `int64(x)` (or `int(x)`) of a `float64` value within the
range of `int64`: truncation toward zero. -/
def F64.toInt (x : F64) : Int :=
  if x.exp ≥ 0 then x.mant * 2 ^ x.exp.toNat else Int.tdiv x.mant (2 ^ (-x.exp).toNat)

/-- Go `time.Minute`. -/
def Minute : Duration := 60 * Second

/-- Go `time.Hour`. -/
def Hour : Duration := 60 * Minute

/-- Go `d.Seconds()`: `float64(d / Second) + float64(d % Second) / 1e9`, with
the truncated division and remainder of Go integers. -/
def Duration.Seconds (d : Duration) : F64 :=
  F64.add (F64.ofInt (Int.tdiv d Second)) (F64.div (F64.ofInt (Int.tmod d Second)) (F64.ofInt 1000000000))

/-- Go `d.Minutes()`: `float64(d / Minute) + float64(d % Minute) / (60 * 1e9)`. -/
def Duration.Minutes (d : Duration) : F64 :=
  F64.add (F64.ofInt (Int.tdiv d Minute)) (F64.div (F64.ofInt (Int.tmod d Minute)) (F64.ofInt 60000000000))

/-- Go `d.Hours()`: `float64(d / Hour) + float64(d % Hour) / (60 * 60 * 1e9)`. -/
def Duration.Hours (d : Duration) : F64 :=
  F64.add (F64.ofInt (Int.tdiv d Hour)) (F64.div (F64.ofInt (Int.tmod d Hour)) (F64.ofInt 3600000000000))

/-! ## Rendering of durations -/

/-- The function `formatDuration`: `int(d.Hours())` hours and
`int(d.Minutes()) % 60` minutes, the hours shown only when positive. -/
def formatDuration (d : Duration) : String :=
  let h := (Duration.Hours d).toInt
  let m := Int.tmod (Duration.Minutes d).toInt 60
  if h > 0 then toString h ++ "год " ++ toString m ++ "хв"
  else toString m ++ "хв"

/-! ## Notifier -/

/-- A request that the notifier attempts on the Telegram API. -/
inductive TelegramCall where
  | sendMessage (botToken chatID text : String)
  | setChatPhoto (botToken chatID photoPath : String)
  | deleteMessage (botToken chatID : String) (messageID : Int)
  deriving DecidableEq, Repr

/-- What the outside world answers to one notification: `sendResult` is `none`
when `http.PostForm` fails and otherwise the `message_id` decoded from the
response (0 when the response carries none); `photoOpens` tells whether
`os.Open(photoPath)` succeeds; `photoPosted` tells whether the `setChatPhoto`
request returns without error. -/
structure TelegramEnv where
  sendResult : Option Int
  photoOpens : Bool
  photoPosted : Bool
  deriving DecidableEq, Repr

/-- The constant `greenAvatar`. -/
def greenAvatar : String := "/opt/power-monitor/green.png"

/-- The constant `redAvatar`. -/
def redAvatar : String := "/opt/power-monitor/red.png"

/-- The function `sendTelegram`: the message id it returns (0 for an empty
token or chat id and for a failed request) and the request it attempted. -/
def sendTelegram (env : TelegramEnv) (botToken chatID text : String) :
    Int × List TelegramCall :=
  if botToken = "" ∨ chatID = "" then (0, [])
  else
    match env.sendResult with
    | none => (0, [TelegramCall.sendMessage botToken chatID text])
    | some messageID => (messageID, [TelegramCall.sendMessage botToken chatID text])

/-- The function `setChatPhoto`: the requests it attempted. The photo is posted
whatever `afterMsgID` is; only the deletion of the service message, whose id is
`afterMsgID + 1`, is guarded by `afterMsgID > 0`. -/
def setChatPhoto (env : TelegramEnv) (botToken chatID photoPath : String)
    (afterMsgID : Int) : List TelegramCall :=
  if botToken = "" ∨ chatID = "" ∨ photoPath = "" then []
  else if !env.photoOpens then []
  else
    TelegramCall.setChatPhoto botToken chatID photoPath ::
      (if env.photoPosted then
        (if afterMsgID > 0 then [TelegramCall.deleteMessage botToken chatID (afterMsgID + 1)]
         else [])
       else [])

/-- The two statements that `pingHandler` and `monitor` run for a notification:
`msgID := sendTelegram(bt, ci, m)` and `setChatPhoto(bt, ci, pp, msgID)`. -/
def notifyTransition (env : TelegramEnv) (botToken chatID text photoPath : String) :
    List TelegramCall :=
  let sent := sendTelegram env botToken chatID text
  sent.2 ++ setChatPhoto env botToken chatID photoPath sent.1

/-- The message that `pingHandler` sends; `hhmm` is `now.Format("15:04")` in
the Kyiv time zone. -/
def upMessage (hhmm : String) (duration : Duration) : String :=
  "🟢 " ++ hhmm ++ " Світло з\x27явилось\n🕓 Його не було " ++ formatDuration duration

/-- The message that `monitor` sends. -/
def downMessage (hhmm : String) (upDuration : Duration) : String :=
  "🔴 " ++ hhmm ++ " Світло зникло\n🕓 Воно було " ++ formatDuration upDuration

/-! ## The handlers with their effects -/

/-- The world that a handler leaves, the devices for which it invoked the
notifier, and the Telegram requests that the notifier attempted. -/
structure Outcome where
  world : World
  notified : List String
  calls : List TelegramCall
  deriving DecidableEq, Repr

/-- The function `pingHandler`: the critical section `recordPing`, and after it,
when the device was down, the `up` event with `int64(duration.Seconds())` and
the notification if the device is configured and not paused. `clock` renders
an instant as `15:04` in the Kyiv time zone. -/
def pingHandler (env : TelegramEnv) (clock : Time → String) (w : World) (device : String)
    (now : Time) : Outcome :=
  let deviceID := pingDeviceID device
  let r := recordPing w deviceID now
  if r.wasDown then
    let duration := timeSince now r.downTime
    let events := saveEvent r.world.dbEvents deviceID "up" now (Duration.Seconds duration).toInt
    if r.config.Configured && !r.config.Paused then
      { world := { r.world with dbEvents := events },
        notified := [deviceID],
        calls := notifyTransition env r.config.BotToken r.config.ChatID
          (upMessage (clock now) duration) greenAvatar }
    else { world := { r.world with dbEvents := events }, notified := [], calls := [] }
  else { world := r.world, notified := [], calls := [] }

/-- The row that the `saveEvent` call of `monitor` inserts for a transition. -/
def downEventRow (now : Time) (tr : DownTransition) : EventRow :=
  { device_id := tr.deviceID, event_type := "down", timestamp := now,
    duration_seconds := some (Duration.Seconds tr.upDuration).toInt }

/-- The `saveEvent` call that `monitor` starts for a transition. -/
def saveDownEvent (now : Time) (rows : List EventRow) (tr : DownTransition) : List EventRow :=
  saveEvent rows tr.deviceID "down" now (Duration.Seconds tr.upDuration).toInt

/-- The notification that `monitor` starts for a transition, with the token and
chat id of the configuration of the device. -/
def downCalls (env : TelegramEnv) (clock : Time → String)
    (devices : List (String × DeviceConfig)) (now : Time) (tr : DownTransition) :
    List TelegramCall :=
  if tr.notify then
    match mapGet devices tr.deviceID with
    | some config =>
      notifyTransition env config.BotToken config.ChatID
        (downMessage (clock now) tr.upDuration) redAvatar
    | none => []
  else []

/-- One iteration of `monitor` with its effects: the sweep under the lock, and
the `saveEvent` calls and notifications that it starts as goroutines, here run
in the order of the transitions. -/
def monitorTick (env : TelegramEnv) (clock : Time → String) (w : World) (now : Time) :
    Outcome :=
  let sw := sweep w now
  { world := { sw.1 with dbEvents := sw.2.foldl (saveDownEvent now) sw.1.dbEvents },
    notified := (sw.2.filter (fun tr => tr.notify)).map DownTransition.deviceID,
    calls := (sw.2.map (downCalls env clock w.devices now)).flatten }

/-! ## Status query -/

/-- An entry of the response of `apiStatusHandler`; the instants are kept as
they are before their formatting. -/
structure DeviceStatus where
  name : String
  status : String
  last_ping : Time
  since : Time
  configured : Bool
  deriving DecidableEq, Repr

/-- The entry that `apiStatusHandler` builds for a device. -/
def deviceStatus (w : World) (now : Time) (id : String) (d : DeviceConfig) : DeviceStatus :=
  let state : DeviceState :=
    match mapGet w.states id with
    | some state => state
    | none => { IsDown := true, LastPing := zeroTime, DownSince := now, UpSince := zeroTime }
  { name := d.Name,
    status := if state.IsDown then "down" else "up",
    last_ping := state.LastPing,
    since := if state.IsDown then state.DownSince else state.UpSince,
    configured := d.Configured }

/-- The function `apiStatusHandler`: an entry for every device of `devices`. -/
def apiStatusHandler (w : World) (now : Time) : List (String × DeviceStatus) :=
  w.devices.map (fun kv => (kv.1, deviceStatus w now kv.1 kv.2))

/-! ## History query -/

/-- The outcome of reading the query parameter `limit`: absent (or empty), an
integer that `fmt.Sscanf` scans, or a text that it cannot scan. -/
inductive LimitParam where
  | absent
  | integer (n : Int)
  | unparsable
  deriving DecidableEq, Repr

/-- The variable `limit` of `historyHandler` when the query runs: 10 unless an
integer was scanned, and 100 when it is greater than 100. -/
def historyLimit (l : LimitParam) : Int :=
  let limit : Int :=
    match l with
    | LimitParam.integer n => n
    | _ => 10
  if limit > 100 then 100 else limit

/-- The clause `LIMIT ?` of SQLite: a negative limit places no bound on the
number of rows. -/
def sqlLimit (limit : Int) (rows : List EventRow) : List EventRow :=
  if limit < 0 then rows else rows.take limit.toNat

/-- The query of `historyHandler` for one device: `WHERE device_id = ? ORDER BY
timestamp DESC LIMIT ?`, the rows in the descending order of their stored
timestamps. -/
def historyRows (zone : Zone) (rows : List EventRow) (id : String) (limit : Int) :
    List EventRow :=
  sqlLimit limit
    ((rows.filter (fun e => decide (e.device_id = id))).insertionSort
      (fun a b => storedAfter zone b.timestamp a.timestamp = false))

/-- The function `historyHandler`: the rows of the device named by the query
parameter `device`, or of every device of `devices` when it is empty. -/
def historyHandler (zone : Zone) (w : World) (deviceID : String) (l : LimitParam) :
    List (String × List EventRow) :=
  let deviceList := if deviceID ≠ "" then [deviceID] else mapKeys w.devices
  deviceList.foldl
    (fun result id => mapSet result id (historyRows zone w.dbEvents id (historyLimit l))) []

/-! ## The end-to-end scenario -/

/-- The persisted events of a device, in insertion order. -/
def eventsOf (w : World) (deviceID : String) : List EventRow :=
  w.dbEvents.filter (fun e => decide (e.device_id = deviceID))

/-- The first step of the scenario: `d1` pings at the instant `t0`. -/
def scenarioPing (env : TelegramEnv) (clock : Time → String) (w : World) (t0 : Time) :
    Outcome :=
  pingHandler env clock w "d1" t0

/-- The second step: the monitor runs 95 seconds after the ping. -/
def scenarioSweep (env : TelegramEnv) (clock : Time → String) (w : World) (t0 : Time) :
    Outcome :=
  monitorTick env clock (scenarioPing env clock w t0).world (t0 + 95 * Second)

/-- The third step: `d1` pings again 100 seconds after its first ping. -/
def scenarioPingAgain (env : TelegramEnv) (clock : Time → String) (w : World) (t0 : Time) :
    Outcome :=
  pingHandler env clock (scenarioSweep env clock w t0).world "d1" (t0 + 100 * Second)

/-! ## Runs that differ in the notification flags -/

/-- A configuration with its flags `Configured` and `Paused` cleared. -/
def eraseFlags (d : DeviceConfig) : DeviceConfig :=
  { d with Configured := false, Paused := false }

/-- Two worlds have the same liveness states and the same persisted events, and
their maps `devices` differ at most in the flags `Configured` and `Paused` of
the configurations. -/
def SameUpToFlags (w1 w2 : World) : Prop :=
  w1.states = w2.states ∧ w1.dbEvents = w2.dbEvents ∧
    w1.devices.map (fun kv => (kv.1, eraseFlags kv.2)) =
      w2.devices.map (fun kv => (kv.1, eraseFlags kv.2))

instance (w1 w2 : World) : Decidable (SameUpToFlags w1 w2) := by
  unfold SameUpToFlags; infer_instance

/-- The log condition of `saveEvent`: the type of the last event of the device
(the empty string when the query finds no row) equals the type to write. -/
def saveEventDuplicate (zone : Zone) (rows : List EventRow) (deviceID eventType : String) :
    Bool :=
  let lastType : String :=
    match lastEvent zone rows deviceID with
    | some ev => ev.event_type
    | none => ""
  decide (lastType = eventType)

/-! ## More sample worlds -/

/-- The zone of a host that keeps UTC. -/
def utcZone : Zone := fun _ => 0

/-- The instant 2000-10-29 01:00:00 UTC, counted from the zero time. -/
def summerTimeEnd : Time := 63108378000 * Second

/-- A zone that is at +03:00 before 2000-10-29 01:00 UTC and at +02:00 from then
on, as Europe/Kyiv is around the end of summer time in 2000. -/
def kyivZone : Zone := fun t => if t < summerTimeEnd then 180 else 120

/-- The world of a process that restarts with the configuration of
`claimedWorld` and two persisted events of `d1`: an `up` event written at
00:50 UTC of 2000-10-29 and a `down` event written 20 minutes later, at 01:10
UTC. The map `states` is empty before the bootstrap. -/
def autumnWorld : World :=
  { claimedWorld with
    states := [],
    dbEvents :=
      saveEvent (saveEvent [] "d1" "up" (summerTimeEnd - 600 * Second) 300)
        "d1" "down" (summerTimeEnd + 600 * Second) 1080 }

/-- A clock rendering that shows noon for every instant. -/
def sampleClock : Time → String := fun _ => "12:00"

/-- The outside world in which the text message cannot be sent and the photo
request works. -/
def failingSend : TelegramEnv :=
  { sendResult := none, photoOpens := true, photoPosted := true }

/-- The outside world in which every request works and the text message gets
the id 41. -/
def workingSend : TelegramEnv :=
  { sendResult := some 41, photoOpens := true, photoPosted := true }

/-- The world of a process that restarts with the configuration of
`claimedWorld` and three persisted events of `d1`, the last one an `up` event
at instant 300; the map `states` is empty before the bootstrap. -/
def restartedWorld : World :=
  { claimedWorld with
    states := [],
    dbEvents := saveEvent outageWorld.dbEvents "d1" "up" 300 100 }

/-- The world after the owner of `d1` has configured its bot token and chat. -/
def configuredWorld : World :=
  (myDeviceHandler claimedWorld "owner@example.com" "d1" Method.PUT
    { Name := "", BotToken := "token", ChatID := "chat", WifiSSID := "", Paused := none,
      Timeout := none }).world

/-- The world `configuredWorld` after the owner has paused `d1`. -/
def pausedWorld : World :=
  (myDeviceHandler configuredWorld "owner@example.com" "d1" Method.PUT
    { Name := "", BotToken := "", ChatID := "", WifiSSID := "", Paused := some true,
      Timeout := none }).world

/-- The world `claimedWorld` with 101 persisted events of `d1`, at the instants
0 to 100. -/
def longHistoryWorld : World :=
  { claimedWorld with
    dbEvents := (List.range 101).map (fun i =>
      { device_id := "d1", event_type := if i % 2 = 0 then "up" else "down",
        timestamp := (i : Int), duration_seconds := some 1 }) }

/-! # Theorems -/

/-! ## Lemmas on maps -/

theorem mapGet_mapSet_self {β : Type} (m : List (String × β)) (k : String) (v : β) :
    mapGet (mapSet m k v) k = some v := by
  induction m with
  | nil => simp [mapSet, mapGet]
  | cons kv rest ih =>
    obtain ⟨k', v'⟩ := kv
    by_cases h : k' = k
    · simp [mapSet, mapGet, h]
    · simp [mapSet, mapGet, h, ih]

theorem mapGet_mapSet_ne {β : Type} (m : List (String × β)) (k k' : String) (v : β)
    (hne : k' ≠ k) : mapGet (mapSet m k v) k' = mapGet m k' := by
  induction m with
  | nil =>
    have : ¬ k = k' := fun h => hne h.symm
    simp [mapSet, mapGet, this]
  | cons kv rest ih =>
    obtain ⟨k1, v1⟩ := kv
    by_cases h : k1 = k
    · subst h
      have : ¬ k1 = k' := fun h => hne h.symm
      simp [mapSet, mapGet, this]
    · by_cases h2 : k1 = k'
      · subst h2
        simp [mapSet, mapGet, h]
      · simp [mapSet, mapGet, h, h2, ih]

theorem mapGet_eq_none_iff {β : Type} (m : List (String × β)) (k : String) :
    mapGet m k = none ↔ k ∉ mapKeys m := by
  induction m with
  | nil => simp [mapGet, mapKeys]
  | cons kv rest ih =>
    obtain ⟨k1, v1⟩ := kv
    by_cases h : k1 = k
    · simp [mapGet, mapKeys, h]
    · have h' : ¬ k = k1 := fun e => h e.symm
      simp only [mapKeys] at ih
      simp [mapGet, mapKeys, h, h', ih]

theorem mapGet_of_mem {β : Type} (m : List (String × β)) (k : String) (v : β)
    (hnd : (mapKeys m).Nodup) (hmem : (k, v) ∈ m) : mapGet m k = some v := by
  induction m with
  | nil => simp at hmem
  | cons kv rest ih =>
    obtain ⟨k1, v1⟩ := kv
    simp only [mapKeys, List.map_cons, List.nodup_cons] at hnd
    rcases List.mem_cons.mp hmem with h | h
    · cases h
      simp [mapGet]
    · have hk : k ∈ rest.map Prod.fst := List.mem_map.mpr ⟨(k, v), h, rfl⟩
      have hne : ¬ k1 = k := fun e => hnd.1 (e ▸ hk)
      simp [mapGet, hne, ih hnd.2 h]

theorem mem_of_mapGet {β : Type} (m : List (String × β)) (k : String) (v : β)
    (h : mapGet m k = some v) : (k, v) ∈ m := by
  induction m with
  | nil => simp [mapGet] at h
  | cons kv rest ih =>
    obtain ⟨k1, v1⟩ := kv
    by_cases hk : k1 = k
    · simp [mapGet, hk] at h
      simp [hk, h]
    · simp [mapGet, hk] at h
      exact List.mem_cons_of_mem _ (ih h)

theorem mapKeys_mapSet_nodup {β : Type} (m : List (String × β)) (k : String) (v : β)
    (hnd : (mapKeys m).Nodup) : (mapKeys (mapSet m k v)).Nodup := by
  induction m with
  | nil => simp [mapSet, mapKeys]
  | cons kv rest ih =>
    obtain ⟨k1, v1⟩ := kv
    simp only [mapKeys, List.map_cons, List.nodup_cons] at hnd
    by_cases h : k1 = k
    · subst h
      simp only [mapSet, if_true, mapKeys, List.map_cons, List.nodup_cons]
      exact hnd
    · simp only [mapSet, h, if_false, mapKeys, List.map_cons, List.nodup_cons]
      refine ⟨?_, ih hnd.2⟩
      intro hmem
      have hg : mapGet (mapSet rest k v) k1 ≠ none := by
        rw [Ne, mapGet_eq_none_iff]; exact fun hn => hn hmem
      rw [mapGet_mapSet_ne rest k k1 v h] at hg
      rw [Ne, mapGet_eq_none_iff] at hg
      exact hg hnd.1

/-! ## Ping handling -/

theorem recordPing_states (w : World) (deviceID : String) (now : Time) :
    (recordPing w deviceID now).world.states =
      mapSet w.states deviceID
        (match mapGet w.states deviceID with
         | some s => { LastPing := now, IsDown := false, DownSince := s.DownSince,
                       UpSince := if s.IsDown then now else s.UpSince }
         | none => { LastPing := now, IsDown := false, DownSince := zeroTime, UpSince := now }) := by
  unfold recordPing
  cases hd : mapGet w.devices deviceID <;> cases hs : mapGet w.states deviceID <;>
    simp only [hs] <;> split <;> simp_all

theorem recordPing_wasDown (w : World) (deviceID : String) (now : Time) :
    (recordPing w deviceID now).wasDown =
      (match mapGet w.states deviceID with
       | some s => s.IsDown
       | none => false) := by
  unfold recordPing
  cases hd : mapGet w.devices deviceID <;> cases hs : mapGet w.states deviceID <;> simp [hs]

theorem recordPing_downTime (w : World) (deviceID : String) (now : Time) :
    (recordPing w deviceID now).downTime =
      (match mapGet w.states deviceID with
       | some s => s.DownSince
       | none => zeroTime) := by
  unfold recordPing
  cases hd : mapGet w.devices deviceID <;> cases hs : mapGet w.states deviceID <;> simp [hs]

/-- C1: after the ping transition at `now` the device's state has
`LastPing = now` and `IsDown = false`; `UpSince = now` when the device was down
before the call or had no state, and is unchanged otherwise; `DownSince` is
unchanged (zero for a state created by the call); the state of every other
device is unchanged. -/
theorem recordPing_state_effect (w : World) (deviceID : String) (now : Time) :
    (∀ s, mapGet w.states deviceID = some s →
      mapGet (recordPing w deviceID now).world.states deviceID =
        some { LastPing := now, IsDown := false, DownSince := s.DownSince,
               UpSince := if s.IsDown then now else s.UpSince }) ∧
    (mapGet w.states deviceID = none →
      mapGet (recordPing w deviceID now).world.states deviceID =
        some { LastPing := now, IsDown := false, DownSince := zeroTime, UpSince := now }) ∧
    (∀ other, other ≠ deviceID →
      mapGet (recordPing w deviceID now).world.states other = mapGet w.states other) := by
  refine ⟨?_, ?_, ?_⟩
  · intro s hs
    rw [recordPing_states, mapGet_mapSet_self, hs]
  · intro hs
    rw [recordPing_states, mapGet_mapSet_self, hs]
  · intro other hne
    rw [recordPing_states, mapGet_mapSet_ne _ _ _ _ hne]

theorem recordPing_state_effect_witness :
    mapGet (recordPing (sweep pingedWorld 95000000000).1 "d1" 100000000000).world.states "d1" =
        some { LastPing := 100000000000, IsDown := false, DownSince := 0,
               UpSince := 100000000000 } ∧
      mapGet (recordPing pingedWorld "d2" 7).world.states "d2" =
        some { LastPing := 7, IsDown := false, DownSince := zeroTime, UpSince := 7 } ∧
      mapGet (recordPing pingedWorld "d2" 7).world.states "d1" = mapGet pingedWorld.states "d1" :=
  ⟨(recordPing_state_effect (sweep pingedWorld 95000000000).1 "d1" 100000000000).1
     { LastPing := 0, IsDown := true, DownSince := 0, UpSince := 0 } (by decide),
   (recordPing_state_effect pingedWorld "d2" 7).2.1 (by decide),
   (recordPing_state_effect pingedWorld "d2" 7).2.2 "d1" (by decide)⟩

theorem recordPing_up_after (w : World) (deviceID other : String) (now : Time)
    (h : other = deviceID ∨ ∃ s, mapGet w.states deviceID = some s ∧ s.IsDown = false) :
    ∃ s, mapGet (recordPing w other now).world.states deviceID = some s ∧ s.IsDown = false := by
  by_cases he : other = deviceID
  · subst he
    rw [recordPing_states, mapGet_mapSet_self]
    cases mapGet w.states other <;> simp
  · rcases h with h | ⟨s, hs, hd⟩
    · exact absurd h he
    · refine ⟨s, ?_, hd⟩
      rw [recordPing_states, mapGet_mapSet_ne _ _ _ _ (fun e => he e.symm), hs]

theorem runPings_up_all_false (pings : List (String × Time)) (w : World) (deviceID : String)
    (h : ∃ s, mapGet w.states deviceID = some s ∧ s.IsDown = false) :
    ∀ p ∈ (runPings w pings).2, p.1 = deviceID → p.2 = false := by
  induction pings generalizing w with
  | nil => intro p hp; simp [runPings] at hp
  | cons hd rest ih =>
    obtain ⟨d, now⟩ := hd
    intro p hp hpd
    simp only [runPings, List.mem_cons] at hp
    rcases hp with hp | hp
    · subst hp
      simp only at hpd
      subst hpd
      obtain ⟨s, hs, hdn⟩ := h
      simp [recordPing_wasDown, hs, hdn]
    · exact ih (recordPing w d now).world (recordPing_up_after w deviceID d now (Or.inr h)) p hp hpd

/-- C2: `recordPing` reports `wasDown` (the spec's `occurred`) exactly when the
device had a state that was down immediately before the call; a ping for a
device that is up reports false; and in any run of pings with no sweep in
between, of the pings of one device every one after the first reports false,
so at most one of them reports true. -/
theorem recordPing_single_transition (w : World) (deviceID : String) (now : Time)
    (pings : List (String × Time)) :
    ((recordPing w deviceID now).wasDown = true ↔
      ∃ s, mapGet w.states deviceID = some s ∧ s.IsDown = true) ∧
    (∀ s, mapGet w.states deviceID = some s → s.IsDown = false →
      (recordPing w deviceID now).wasDown = false) ∧
    (∀ b ∈ (((runPings w pings).2.filter (fun p => decide (p.1 = deviceID))).map Prod.snd).tail,
      b = false) ∧
    (((runPings w pings).2.filter (fun p => decide (p.1 = deviceID))).filter
      (fun p => p.2)).length ≤ 1 := by
  have key : ∀ (ps : List (String × Time)) (w0 : World),
      ∀ b ∈ (((runPings w0 ps).2.filter (fun p => decide (p.1 = deviceID))).map Prod.snd).tail,
        b = false := by
    intro ps
    induction ps with
    | nil => intro w0 b hb; simp [runPings] at hb
    | cons hd rest ih =>
      obtain ⟨d, t⟩ := hd
      intro w0 b hb
      by_cases hdd : d = deviceID
      · subst hdd
        simp only [runPings, List.filter_cons, decide_True, if_true, List.map_cons,
          List.tail_cons] at hb
        obtain ⟨p, hp, hpb⟩ := List.mem_map.mp hb
        have hp' := List.mem_filter.mp hp
        have := runPings_up_all_false rest (recordPing w0 d t).world d
          (recordPing_up_after w0 d d t (Or.inl rfl)) p hp'.1 (by simpa using hp'.2)
        rw [← hpb, this]
      · have : decide (d = deviceID) = false := by simp [hdd]
        simp only [runPings, List.filter_cons, this] at hb
        exact ih (recordPing w0 d t).world b hb
  refine ⟨?_, ?_, key pings w, ?_⟩
  · rw [recordPing_wasDown]
    cases hs : mapGet w.states deviceID <;> simp
  · intro s hs hd
    rw [recordPing_wasDown, hs]
    exact hd
  · have hk := key pings w
    generalize ((runPings w pings).2.filter (fun p => decide (p.1 = deviceID))) = l at hk
    cases l with
    | nil => simp
    | cons a rest =>
      simp only [List.map_cons, List.tail_cons] at hk
      have hrest : rest.filter (fun p => p.2) = [] := by
        rw [List.filter_eq_nil_iff]
        intro p hp
        have := hk p.2 (List.mem_map.mpr ⟨p, hp, rfl⟩)
        simp [this]
      rw [List.filter_cons]
      split <;> simp [hrest]

theorem recordPing_single_transition_witness :
    (recordPing (sweep pingedWorld 95000000000).1 "d1" 100000000000).wasDown = true ∧
      (recordPing pingedWorld "d1" 5).wasDown = false ∧
      (((runPings (sweep pingedWorld 95000000000).1
          [("d1", 100000000000), ("d2", 100000000001), ("d1", 100000000002)]).2.filter
        (fun p => decide (p.1 = "d1"))).filter (fun p => p.2)).length ≤ 1 :=
  ⟨(recordPing_single_transition (sweep pingedWorld 95000000000).1 "d1" 100000000000 []).1.mpr
     ⟨{ LastPing := 0, IsDown := true, DownSince := 0, UpSince := 0 }, by decide, rfl⟩,
   (recordPing_single_transition pingedWorld "d1" 5 []).2.1
     { LastPing := 0, IsDown := false, DownSince := 0, UpSince := 0 } (by decide) rfl,
   (recordPing_single_transition (sweep pingedWorld 95000000000).1 "d1" 100000000000
     [("d1", 100000000000), ("d2", 100000000001), ("d1", 100000000002)]).2.2.2⟩

/-! ## Timeouts and elapsed time -/

theorem getDeviceTimeout_bounds (c : DeviceConfig) :
    minDuration ≤ getDeviceTimeout c ∧ getDeviceTimeout c < maxDuration := by
  unfold getDeviceTimeout wrapInt64 timeout Second minDuration maxDuration
  unfold Duration
  split <;> omega

theorem timeSince_gt_iff (now t : Time) (d : Duration) (hlo : minDuration ≤ d)
    (hhi : d < maxDuration) : timeSince now t > d ↔ now - t > d := by
  unfold timeSince timeSub
  unfold minDuration at hlo
  unfold maxDuration at hhi
  unfold minDuration maxDuration
  unfold Time Duration at *
  split
  · constructor <;> intro _ <;> omega
  · split
    · constructor <;> intro _ <;> omega
    · rfl

theorem timeSub_exact (t u : Time) (hlo : minDuration ≤ t - u) (hhi : t - u ≤ maxDuration) :
    timeSub t u = t - u := by
  unfold timeSub
  unfold Time Duration at *
  rw [if_neg (by omega), if_neg (by omega)]

/-! ## Monitor sweep -/

theorem sweepState_selected (devices : List (String × DeviceConfig)) (now : Time)
    (deviceID : String) (s : DeviceState) (c : DeviceConfig)
    (hc : mapGet devices deviceID = some c) (hup : s.IsDown = false)
    (hlate : now - s.LastPing > getDeviceTimeout c) :
    sweepState devices now deviceID s =
      ({ LastPing := s.LastPing, IsDown := true, DownSince := s.LastPing, UpSince := s.UpSince },
       some { deviceID := deviceID, upDuration := timeSub s.LastPing s.UpSince,
              notify := c.Configured && !c.Paused }) := by
  have h := (timeSince_gt_iff now s.LastPing (getDeviceTimeout c)
    (getDeviceTimeout_bounds c).1 (getDeviceTimeout_bounds c).2).mpr hlate
  simp [sweepState, hc, hup, h]

theorem sweepState_not_selected (devices : List (String × DeviceConfig)) (now : Time)
    (deviceID : String) (s : DeviceState)
    (h : ¬ ∃ c, mapGet devices deviceID = some c ∧ s.IsDown = false ∧
      now - s.LastPing > getDeviceTimeout c) :
    sweepState devices now deviceID s = (s, none) := by
  unfold sweepState
  cases hc : mapGet devices deviceID with
  | none => rfl
  | some c =>
    have hn : ¬ (s.IsDown = false ∧ timeSince now s.LastPing > getDeviceTimeout c) := by
      rintro ⟨h1, h2⟩
      exact h ⟨c, hc, h1, (timeSince_gt_iff now s.LastPing (getDeviceTimeout c)
        (getDeviceTimeout_bounds c).1 (getDeviceTimeout_bounds c).2).mp h2⟩
    simp only []
    rw [if_neg]
    simpa using hn

theorem sweepState_transition (devices : List (String × DeviceConfig)) (now : Time)
    (deviceID : String) (s : DeviceState) (tr : DownTransition)
    (h : (sweepState devices now deviceID s).2 = some tr) :
    (∃ c, mapGet devices deviceID = some c ∧ s.IsDown = false ∧
      now - s.LastPing > getDeviceTimeout c) ∧ tr.deviceID = deviceID := by
  by_cases hsel : ∃ c, mapGet devices deviceID = some c ∧ s.IsDown = false ∧
      now - s.LastPing > getDeviceTimeout c
  · refine ⟨hsel, ?_⟩
    obtain ⟨c, hc, hup, hlate⟩ := hsel
    rw [sweepState_selected devices now deviceID s c hc hup hlate] at h
    simp only [Option.some.injEq] at h
    rw [← h]
  · rw [sweepState_not_selected devices now deviceID s hsel] at h
    simp at h

theorem mapGet_sweepStates (devices : List (String × DeviceConfig)) (now : Time)
    (states : List (String × DeviceState)) (deviceID : String) :
    mapGet (sweepStates devices now states) deviceID =
      (mapGet states deviceID).map (fun s => (sweepState devices now deviceID s).1) := by
  induction states with
  | nil => simp [sweepStates, mapGet]
  | cons kv rest ih =>
    obtain ⟨k, s⟩ := kv
    unfold sweepStates at ih
    by_cases hk : k = deviceID
    · subst hk
      simp [sweepStates, mapGet]
    · simp [sweepStates, mapGet, hk, ih]

theorem mem_sweepTransitions (devices : List (String × DeviceConfig)) (now : Time)
    (states : List (String × DeviceState)) (tr : DownTransition) :
    tr ∈ sweepTransitions devices now states ↔
      ∃ kv ∈ states, (sweepState devices now kv.1 kv.2).2 = some tr := by
  unfold sweepTransitions
  rw [List.mem_filterMap]

theorem mem_sweep_ids_iff (w : World) (now : Time) (deviceID : String) (hwf : StatesWF w) :
    deviceID ∈ (sweep w now).2.map DownTransition.deviceID ↔
      ∃ s c, mapGet w.states deviceID = some s ∧ mapGet w.devices deviceID = some c ∧
        s.IsDown = false ∧ now - s.LastPing > getDeviceTimeout c := by
  constructor
  · intro h
    obtain ⟨tr, htr, hid⟩ := List.mem_map.mp h
    obtain ⟨kv, hkv, hs⟩ := (mem_sweepTransitions w.devices now w.states tr).mp htr
    obtain ⟨k, s⟩ := kv
    obtain ⟨⟨c, hc, hup, hlate⟩, hk⟩ := sweepState_transition w.devices now k s tr hs
    have hkd : k = deviceID := by rw [← hid, hk]
    subst hkd
    exact ⟨s, c, mapGet_of_mem w.states k s hwf hkv, hc, hup, hlate⟩
  · rintro ⟨s, c, hs, hc, hup, hlate⟩
    refine List.mem_map.mpr
      ⟨{ deviceID := deviceID, upDuration := timeSub s.LastPing s.UpSince,
         notify := c.Configured && !c.Paused },
       (mem_sweepTransitions w.devices now w.states _).mpr
        ⟨(deviceID, s), mem_of_mapGet w.states deviceID s hs, ?_⟩, rfl⟩
    rw [sweepState_selected w.devices now deviceID s c hc hup hlate]

theorem statesWF_recordPing (w : World) (deviceID : String) (now : Time) (hwf : StatesWF w) :
    StatesWF (recordPing w deviceID now).world := by
  unfold StatesWF
  rw [recordPing_states]
  exact mapKeys_mapSet_nodup _ _ _ hwf

theorem statesWF_sweep (w : World) (now : Time) (hwf : StatesWF w) :
    StatesWF (sweep w now).1 := by
  have : mapKeys (sweepStates w.devices now w.states) = mapKeys w.states := by
    unfold mapKeys sweepStates
    rw [List.map_map]
    rfl
  unfold StatesWF
  show (mapKeys (sweepStates w.devices now w.states)).Nodup
  rw [this]
  exact hwf

/-- C3: a device is among the transitions of `sweep w now` exactly when, before
the sweep, it has a state and a configuration, is not down, and `now -
LastPing` is strictly greater than its timeout; the state of a device that is
not selected is unchanged, in particular that of a device whose silence equals
its timeout and that of a device that is already down. -/
theorem sweep_selection (w : World) (now : Time) (deviceID : String) (hwf : StatesWF w) :
    (deviceID ∈ (sweep w now).2.map DownTransition.deviceID ↔
      ∃ s c, mapGet w.states deviceID = some s ∧ mapGet w.devices deviceID = some c ∧
        s.IsDown = false ∧ now - s.LastPing > getDeviceTimeout c) ∧
    ((¬ ∃ s c, mapGet w.states deviceID = some s ∧ mapGet w.devices deviceID = some c ∧
        s.IsDown = false ∧ now - s.LastPing > getDeviceTimeout c) →
      mapGet (sweep w now).1.states deviceID = mapGet w.states deviceID) ∧
    (∀ s c, mapGet w.states deviceID = some s → mapGet w.devices deviceID = some c →
      now - s.LastPing = getDeviceTimeout c →
      deviceID ∉ (sweep w now).2.map DownTransition.deviceID ∧
        mapGet (sweep w now).1.states deviceID = some s) ∧
    (∀ s, mapGet w.states deviceID = some s → s.IsDown = true →
      deviceID ∉ (sweep w now).2.map DownTransition.deviceID ∧
        mapGet (sweep w now).1.states deviceID = some s) := by
  have hiff := mem_sweep_ids_iff w now deviceID hwf
  have hkeep : (¬ ∃ s c, mapGet w.states deviceID = some s ∧
      mapGet w.devices deviceID = some c ∧ s.IsDown = false ∧
      now - s.LastPing > getDeviceTimeout c) →
      mapGet (sweep w now).1.states deviceID = mapGet w.states deviceID := by
    intro hno
    show mapGet (sweepStates w.devices now w.states) deviceID = _
    rw [mapGet_sweepStates]
    cases hs : mapGet w.states deviceID with
    | none => rfl
    | some s =>
      have : ¬ ∃ c, mapGet w.devices deviceID = some c ∧ s.IsDown = false ∧
          now - s.LastPing > getDeviceTimeout c := by
        rintro ⟨c, hc, hup, hlate⟩
        exact hno ⟨s, c, hs, hc, hup, hlate⟩
      simp [sweepState_not_selected w.devices now deviceID s this]
  refine ⟨hiff, hkeep, ?_, ?_⟩
  · intro s c hs hc heq
    have hno : ¬ ∃ s c, mapGet w.states deviceID = some s ∧
        mapGet w.devices deviceID = some c ∧ s.IsDown = false ∧
        now - s.LastPing > getDeviceTimeout c := by
      rintro ⟨s', c', hs', hc', _, hlate⟩
      rw [hs] at hs'
      rw [hc] at hc'
      cases hs'
      cases hc'
      exact absurd hlate (by rw [heq]; exact lt_irrefl _)
    exact ⟨fun hmem => hno (hiff.mp hmem), by rw [hkeep hno, hs]⟩
  · intro s hs hdown
    have hno : ¬ ∃ s c, mapGet w.states deviceID = some s ∧
        mapGet w.devices deviceID = some c ∧ s.IsDown = false ∧
        now - s.LastPing > getDeviceTimeout c := by
      rintro ⟨s', c', hs', _, hup, _⟩
      rw [hs] at hs'
      cases hs'
      rw [hdown] at hup
      exact Bool.noConfusion hup
    exact ⟨fun hmem => hno (hiff.mp hmem), by rw [hkeep hno, hs]⟩

theorem sweep_selection_witness :
    StatesWF pingedWorld ∧
      "d1" ∈ (sweep pingedWorld 95000000000).2.map DownTransition.deviceID ∧
      "d1" ∉ (sweep pingedWorld 90000000000).2.map DownTransition.deviceID :=
  ⟨by decide,
   (sweep_selection pingedWorld 95000000000 "d1" (by decide)).1.mpr
     ⟨{ LastPing := 0, IsDown := false, DownSince := 0, UpSince := 0 },
      { ID := "d1", Name := "d1", ChatID := "", BotToken := "", Configured := false,
        OwnerEmail := "", WifiSSID := "", Paused := false, Timeout := 0 },
      by decide, by decide, rfl, by decide⟩,
   ((sweep_selection pingedWorld 90000000000 "d1" (by decide)).2.2.1
      { LastPing := 0, IsDown := false, DownSince := 0, UpSince := 0 }
      { ID := "d1", Name := "d1", ChatID := "", BotToken := "", Configured := false,
        OwnerEmail := "", WifiSSID := "", Paused := false, Timeout := 0 }
      (by decide) (by decide) (by decide)).1⟩

theorem sweep_down_unchanged (w : World) (now : Time) (deviceID : String) (s : DeviceState)
    (hwf : StatesWF w) (hs : mapGet w.states deviceID = some s) (hdown : s.IsDown = true) :
    deviceID ∉ (sweep w now).2.map DownTransition.deviceID ∧
      mapGet (sweep w now).1.states deviceID = some s := by
  constructor
  · intro hmem
    obtain ⟨s', _, hs', _, hup, _⟩ := (mem_sweep_ids_iff w now deviceID hwf).mp hmem
    rw [hs] at hs'
    cases hs'
    rw [hdown] at hup
    exact Bool.noConfusion hup
  · show mapGet (sweepStates w.devices now w.states) deviceID = _
    rw [mapGet_sweepStates, hs, Option.map_some']
    have : ¬ ∃ c, mapGet w.devices deviceID = some c ∧ s.IsDown = false ∧
        now - s.LastPing > getDeviceTimeout c := by
      rintro ⟨c, _, hup, _⟩
      rw [hdown] at hup
      exact Bool.noConfusion hup
    rw [sweepState_not_selected w.devices now deviceID s this]

theorem runOps_down_not_reported (ops : List LivenessOp) (w : World) (deviceID : String)
    (s : DeviceState) (hwf : StatesWF w) (hs : mapGet w.states deviceID = some s)
    (hdown : s.IsDown = true) (hnoping : ∀ t, LivenessOp.ping deviceID t ∉ ops) :
    deviceID ∉ (runOps w ops).2.map DownTransition.deviceID := by
  induction ops generalizing w with
  | nil => simp [runOps]
  | cons op rest ih =>
    have hrest : ∀ t, LivenessOp.ping deviceID t ∉ rest :=
      fun t h => hnoping t (List.mem_cons_of_mem _ h)
    cases op with
    | ping d t =>
      have hne : deviceID ≠ d := by
        intro h
        exact hnoping t (h ▸ List.mem_cons_self _ _)
      simp only [runOps]
      apply ih _ (statesWF_recordPing w d t hwf) _ hrest
      rw [recordPing_states, mapGet_mapSet_ne _ _ _ _ hne, hs]
    | sweep t =>
      obtain ⟨hnot, hkeep⟩ := sweep_down_unchanged w t deviceID s hwf hs hdown
      simp only [runOps, List.map_append, List.mem_append, not_or]
      exact ⟨hnot, ih _ (statesWF_sweep w t hwf) hkeep hrest⟩

theorem transition_leaves_down (w : World) (now : Time) (tr : DownTransition)
    (hwf : StatesWF w) (htr : tr ∈ (sweep w now).2) :
    ∃ s', mapGet (sweep w now).1.states tr.deviceID = some s' ∧ s'.IsDown = true := by
  obtain ⟨kv, hkv, hs⟩ := (mem_sweepTransitions w.devices now w.states tr).mp htr
  obtain ⟨k, s⟩ := kv
  obtain ⟨⟨c, hc, hup, hlate⟩, hk⟩ := sweepState_transition w.devices now k s tr hs
  have hget : mapGet w.states k = some s := mapGet_of_mem w.states k s hwf hkv
  rw [hk]
  refine ⟨(sweepState w.devices now k s).1, ?_, ?_⟩
  · show mapGet (sweepStates w.devices now w.states) k = _
    rw [mapGet_sweepStates, hget, Option.map_some']
  · rw [sweepState_selected w.devices now k s c hc hup hlate]

/-- C5: running `sweep` twice at the same instant with nothing in between, the
second run reports no transition and leaves the world unchanged; and a device
that a sweep has transitioned is not reported again by any later sweep, at
whatever instants the later sweeps run and whatever other devices ping in
between, as long as the device itself does not ping. -/
theorem sweep_idempotent (w : World) (now : Time) :
    (sweep (sweep w now).1 now).2 = [] ∧
    (sweep (sweep w now).1 now).1 = (sweep w now).1 ∧
    (StatesWF w → ∀ tr ∈ (sweep w now).2, ∀ ops : List LivenessOp,
      (∀ t, LivenessOp.ping tr.deviceID t ∉ ops) →
      tr.deviceID ∉ (runOps (sweep w now).1 ops).2.map DownTransition.deviceID) := by
  have hdown : ∀ (t : Time) (k : String) (s : DeviceState), s.IsDown = true →
      sweepState w.devices t k s = (s, none) := by
    intro t k s hd
    apply sweepState_not_selected
    rintro ⟨c, _, hup, _⟩
    rw [hd] at hup
    exact Bool.noConfusion hup
  have hagain : ∀ (k : String) (s : DeviceState),
      sweepState w.devices now k (sweepState w.devices now k s).1 =
        ((sweepState w.devices now k s).1, none) := by
    intro k s
    by_cases hsel : ∃ c, mapGet w.devices k = some c ∧ s.IsDown = false ∧
        now - s.LastPing > getDeviceTimeout c
    · obtain ⟨c, hc, hup, hlate⟩ := hsel
      rw [sweepState_selected w.devices now k s c hc hup hlate]
      exact hdown now k _ rfl
    · rw [sweepState_not_selected w.devices now k s hsel]
      exact sweepState_not_selected w.devices now k s hsel
  refine ⟨?_, ?_, ?_⟩
  · show sweepTransitions w.devices now (sweepStates w.devices now w.states) = []
    unfold sweepTransitions sweepStates
    rw [List.filterMap_map, List.filterMap_eq_nil_iff]
    intro kv _
    simp [hagain kv.1 kv.2]
  · show ({ (sweep w now).1 with
        states := sweepStates w.devices now (sweepStates w.devices now w.states) } : World) = _
    have : sweepStates w.devices now (sweepStates w.devices now w.states) =
        sweepStates w.devices now w.states := by
      unfold sweepStates
      rw [List.map_map]
      apply List.map_congr_left
      intro kv _
      simp [hagain kv.1 kv.2]
    rw [this]
    rfl
  · intro hwf tr htr ops hnoping
    obtain ⟨s', hs', hd'⟩ := transition_leaves_down w now tr hwf htr
    exact runOps_down_not_reported ops (sweep w now).1 tr.deviceID s'
      (statesWF_sweep w now hwf) hs' hd' hnoping

theorem sweep_idempotent_witness :
    StatesWF pingedWorld ∧ (sweep pingedWorld 95000000000).2 ≠ [] ∧
      (sweep (sweep pingedWorld 95000000000).1 95000000000).2 = [] ∧
      "d1" ∉ (runOps (sweep pingedWorld 95000000000).1
        [LivenessOp.sweep 95000000000, LivenessOp.ping "d2" 96000000000,
         LivenessOp.sweep 395000000000]).2.map DownTransition.deviceID :=
  ⟨by decide, by decide, (sweep_idempotent pingedWorld 95000000000).1,
   (sweep_idempotent pingedWorld 95000000000).2.2 (by decide)
     { deviceID := "d1", upDuration := 0, notify := false } (by decide)
     [LivenessOp.sweep 95000000000, LivenessOp.ping "d2" 96000000000,
      LivenessOp.sweep 395000000000] (by intro t h; simp at h)⟩

theorem recordPing_config (w : World) (deviceID : String) (now : Time) :
    mapGet (recordPing w deviceID now).world.devices deviceID =
      some (recordPing w deviceID now).config := by
  unfold recordPing
  cases hd : mapGet w.devices deviceID with
  | none => simp [mapGet_mapSet_self]
  | some c => simp [hd]

/-- C6: if a device pings at `t0`, a sweep runs at `t1 > t0 + timeout` and the
device pings again at `t2 ≥ t1`, then the sweep reports the device and leaves
it down with `DownSince = t0` (not `t1`), and the second ping reports
`wasDown = true` with the outage duration `t2.Sub(t0)`, which is `t2 - t0`
whenever that fits a `Duration`. -/
theorem duration_correctness (w : World) (deviceID : String) (t0 t1 t2 : Time)
    (h1 : t1 > t0 + getDeviceTimeout (recordPing w deviceID t0).config) (h2 : t2 ≥ t1) :
    deviceID ∈ (sweep (recordPing w deviceID t0).world t1).2.map DownTransition.deviceID ∧
    (∃ s, mapGet (sweep (recordPing w deviceID t0).world t1).1.states deviceID = some s ∧
      s.IsDown = true ∧ s.DownSince = t0) ∧
    (recordPing (sweep (recordPing w deviceID t0).world t1).1 deviceID t2).wasDown = true ∧
    outageDuration (recordPing (sweep (recordPing w deviceID t0).world t1).1 deviceID t2) t2 =
      timeSub t2 t0 ∧
    (t2 - t0 ≤ maxDuration →
      outageDuration (recordPing (sweep (recordPing w deviceID t0).world t1).1 deviceID t2) t2 =
        t2 - t0) := by
  obtain ⟨s0, hs0, hup0, hlp0⟩ : ∃ s, mapGet (recordPing w deviceID t0).world.states deviceID
      = some s ∧ s.IsDown = false ∧ s.LastPing = t0 := by
    rw [recordPing_states, mapGet_mapSet_self]
    cases mapGet w.states deviceID <;> simp
  have hc := recordPing_config w deviceID t0
  have hlate : t1 - s0.LastPing > getDeviceTimeout (recordPing w deviceID t0).config := by
    rw [hlp0]
    unfold Time Duration at *
    omega
  have hsel := sweepState_selected (recordPing w deviceID t0).world.devices t1 deviceID s0 _
    hc hup0 hlate
  have hafter : mapGet (sweep (recordPing w deviceID t0).world t1).1.states deviceID =
      some { LastPing := s0.LastPing, IsDown := true, DownSince := s0.LastPing,
             UpSince := s0.UpSince } := by
    show mapGet (sweepStates _ t1 _) deviceID = _
    rw [mapGet_sweepStates, hs0, Option.map_some', hsel]
  have hout : outageDuration
      (recordPing (sweep (recordPing w deviceID t0).world t1).1 deviceID t2) t2 =
      timeSub t2 t0 := by
    unfold outageDuration timeSince
    rw [recordPing_downTime, hafter]
    simp only []
    rw [hlp0]
  refine ⟨?_, ⟨_, hafter, rfl, hlp0⟩, ?_, hout, ?_⟩
  · refine List.mem_map.mpr
      ⟨{ deviceID := deviceID, upDuration := timeSub s0.LastPing s0.UpSince,
         notify := (recordPing w deviceID t0).config.Configured &&
           !(recordPing w deviceID t0).config.Paused },
       (mem_sweepTransitions _ t1 _ _).mpr
        ⟨(deviceID, s0), mem_of_mapGet _ deviceID s0 hs0, ?_⟩, rfl⟩
    rw [hsel]
  · rw [recordPing_wasDown, hafter]
  · intro hfit
    rw [hout]
    apply timeSub_exact _ _ _ hfit
    have hb := (getDeviceTimeout_bounds (recordPing w deviceID t0).config).1
    unfold minDuration at *
    unfold Time Duration at *
    omega

theorem duration_correctness_witness :
    "d1" ∈ (sweep (recordPing emptyWorld "d1" 10).world 95000000000).2.map
      DownTransition.deviceID ∧
    (∃ s, mapGet (sweep (recordPing emptyWorld "d1" 10).world 95000000000).1.states "d1"
        = some s ∧ s.IsDown = true ∧ s.DownSince = 10) ∧
    (recordPing (sweep (recordPing emptyWorld "d1" 10).world 95000000000).1 "d1"
      100000000000).wasDown = true ∧
    outageDuration (recordPing (sweep (recordPing emptyWorld "d1" 10).world 95000000000).1
      "d1" 100000000000) 100000000000 = timeSub 100000000000 10 ∧
    (100000000000 - 10 ≤ maxDuration →
      outageDuration (recordPing (sweep (recordPing emptyWorld "d1" 10).world 95000000000).1
        "d1" 100000000000) 100000000000 = 100000000000 - 10) :=
  duration_correctness emptyWorld "d1" 10 95000000000 100000000000 (by decide) (by decide)

/-! ## Timeout policy -/

theorem clampTimeout_eq (t : Int) : clampTimeout t = min (max t 30) 300 := by
  unfold clampTimeout
  simp only []
  split <;> split <;> omega

theorem clampTimeout_bounds (t : Int) : 30 ≤ clampTimeout t ∧ clampTimeout t ≤ 300 := by
  rw [clampTimeout_eq]
  omega

theorem applyPut_Timeout (d : DeviceConfig) (data : PutData) :
    (applyPut d data).Timeout =
      (match data.Timeout with
       | some t => clampTimeout t
       | none => d.Timeout) := by
  unfold applyPut
  cases data.Timeout <;> cases data.Paused <;> simp only [] <;>
    split <;> split <;> split <;> rfl

theorem getDeviceTimeout_of_bounds (c : DeviceConfig) (hlo : 30 ≤ c.Timeout)
    (hhi : c.Timeout ≤ 300) : getDeviceTimeout c = c.Timeout * Second := by
  unfold getDeviceTimeout wrapInt64 Second
  unfold Duration
  rw [if_pos (by omega)]
  omega

theorem getDeviceTimeout_of_policy (c : DeviceConfig) (h : TimeoutOK c.Timeout) :
    30 * Second ≤ getDeviceTimeout c ∧ getDeviceTimeout c ≤ 300 * Second := by
  rcases h with h | ⟨hlo, hhi⟩
  · unfold getDeviceTimeout timeout Second
    unfold Duration
    rw [h]
    simp
  · rw [getDeviceTimeout_of_bounds c hlo hhi]
    unfold Second
    unfold Duration
    omega

/-- C7: a `PUT` that carries the timeout value `v` for an existing device
leaves the device with the stored timeout `min (max v 30) 300` and the
effective timeout `min (max v 30) 300` seconds; this holds of every `v`, so of
every non-zero one. -/
theorem timeout_clamping (w : World) (email id : String) (data : PutData) (v : Int)
    (c : DeviceConfig) (hc : mapGet w.devices id = some c) (hv : data.Timeout = some v) :
    ∃ c', mapGet (myDeviceHandler w email id Method.PUT data).world.devices id = some c' ∧
      c'.Timeout = min (max v 30) 300 ∧
      getDeviceTimeout c' = min (max v 30) 300 * Second := by
  have ht : (applyPut c data).Timeout = min (max v 30) 300 := by
    rw [applyPut_Timeout, hv]
    exact clampTimeout_eq v
  refine ⟨applyPut c data, ?_, ht, ?_⟩
  · simp only [myDeviceHandler, hc]
    exact mapGet_mapSet_self _ _ _
  · rw [getDeviceTimeout_of_bounds (applyPut c data) (by rw [ht]; omega) (by rw [ht]; omega), ht]

theorem timeout_clamping_witness :
    (∃ c', mapGet (myDeviceHandler claimedWorld "owner@example.com" "d1" Method.PUT
        (timeoutPut 10)).world.devices "d1" = some c' ∧
      c'.Timeout = 30 ∧ getDeviceTimeout c' = 30 * Second) ∧
    (∃ c', mapGet (myDeviceHandler claimedWorld "owner@example.com" "d1" Method.PUT
        (timeoutPut 1000)).world.devices "d1" = some c' ∧
      c'.Timeout = 300 ∧ getDeviceTimeout c' = 300 * Second) := by
  constructor
  · have h := timeout_clamping claimedWorld "owner@example.com" "d1" (timeoutPut 10) 10
      { ID := "d1", Name := "Home", ChatID := "", BotToken := "", Configured := false,
        OwnerEmail := "owner@example.com", WifiSSID := "", Paused := false, Timeout := 0 }
      (by decide) rfl
    simpa using h
  · have h := timeout_clamping claimedWorld "owner@example.com" "d1" (timeoutPut 1000) 1000
      { ID := "d1", Name := "Home", ChatID := "", BotToken := "", Configured := false,
        OwnerEmail := "owner@example.com", WifiSSID := "", Paused := false, Timeout := 0 }
      (by decide) rfl
    simpa using h

/-- C8: evaluation of the code at the failing input. The owner of `d1`, whose
effective timeout is the default of 90 seconds, sends a `PUT` with the timeout
0: the request is accepted without error, the stored timeout becomes 30 and
the effective timeout 30 seconds, not the default. -/
theorem put_timeout_zero_gives_minimum :
    (∃ c, mapGet claimedWorld.devices "d1" = some c ∧ c.OwnerEmail = "owner@example.com" ∧
      getDeviceTimeout c = 90 * Second) ∧
    (myDeviceHandler claimedWorld "owner@example.com" "d1" Method.PUT (timeoutPut 0)).errors
      = [] ∧
    (myDeviceHandler claimedWorld "owner@example.com" "d1" Method.PUT (timeoutPut 0)).panicked
      = false ∧
    (∃ c', mapGet (myDeviceHandler claimedWorld "owner@example.com" "d1" Method.PUT
        (timeoutPut 0)).world.devices "d1" = some c' ∧
      c'.Timeout = 30 ∧ getDeviceTimeout c' = 30 * Second ∧
      getDeviceTimeout c' ≠ 90 * Second) :=
  ⟨⟨{ ID := "d1", Name := "Home", ChatID := "", BotToken := "", Configured := false,
      OwnerEmail := "owner@example.com", WifiSSID := "", Paused := false, Timeout := 0 },
    by decide, by decide, by decide⟩, by decide, by decide,
   ⟨{ ID := "d1", Name := "Home", ChatID := "", BotToken := "", Configured := false,
      OwnerEmail := "owner@example.com", WifiSSID := "", Paused := false, Timeout := 30 },
    by decide, by decide, by decide, by decide⟩⟩

/-! ## Timeout policy invariant -/

theorem mem_mapSet {β : Type} (m : List (String × β)) (k : String) (v : β)
    (kv : String × β) (h : kv ∈ mapSet m k v) : kv ∈ m ∨ kv = (k, v) := by
  induction m with
  | nil =>
    simp only [mapSet, List.mem_singleton] at h
    exact Or.inr h
  | cons e rest ih =>
    obtain ⟨k1, v1⟩ := e
    by_cases hk : k1 = k
    · simp only [mapSet, hk, if_true, List.mem_cons] at h
      rcases h with h | h
      · exact Or.inr h
      · exact Or.inl (List.mem_cons_of_mem _ h)
    · simp only [mapSet, hk, if_false, List.mem_cons] at h
      rcases h with h | h
      · exact Or.inl (h ▸ List.mem_cons_self _ _)
      · rcases ih h with h' | h'
        · exact Or.inl (List.mem_cons_of_mem _ h')
        · exact Or.inr h'

theorem timeoutPolicy_mapSet (devices : List (String × DeviceConfig)) (k : String)
    (c : DeviceConfig) (h : ∀ kv ∈ devices, TimeoutOK kv.2.Timeout) (hc : TimeoutOK c.Timeout) :
    ∀ kv ∈ mapSet devices k c, TimeoutOK kv.2.Timeout := by
  intro kv hkv
  rcases mem_mapSet devices k c kv hkv with h' | h'
  · exact h kv h'
  · rw [h']
    exact hc

theorem timeoutPolicy_recordPing (w : World) (deviceID : String) (now : Time)
    (h : TimeoutPolicy w) : TimeoutPolicy (recordPing w deviceID now).world := by
  unfold TimeoutPolicy recordPing
  cases hd : mapGet w.devices deviceID with
  | none =>
    simp only []
    exact timeoutPolicy_mapSet w.devices deviceID _ h (Or.inl rfl)
  | some c => exact h

theorem timeoutPolicy_claim (w : World) (email deviceID deviceName : String)
    (h : TimeoutPolicy w) : TimeoutPolicy (claimDeviceHandler w email deviceID deviceName) := by
  unfold claimDeviceHandler
  split
  · exact h
  · split
    · exact h
    · unfold TimeoutPolicy
      cases hd : mapGet w.devices deviceID with
      | none =>
        simp only []
        apply timeoutPolicy_mapSet
        · exact timeoutPolicy_mapSet w.devices deviceID _ h (Or.inl rfl)
        · split <;> exact Or.inl rfl
      | some c =>
        simp only []
        apply timeoutPolicy_mapSet _ _ _ h
        have hc : TimeoutOK c.Timeout := h (deviceID, c) (mem_of_mapGet _ _ _ hd)
        split <;> exact hc

theorem timeoutPolicy_manifest (w : World) (ownerEmail device name botToken chatID : String)
    (now : Time) (h : TimeoutPolicy w) :
    TimeoutPolicy (manifestHandler w ownerEmail device name botToken chatID now) := by
  unfold manifestHandler
  split
  · cases hd : mapGet w.devices device with
    | none => exact timeoutPolicy_mapSet w.devices device _ h (Or.inl rfl)
    | some c => exact h
  · exact h

theorem timeoutPolicy_myDevice (w : World) (email id : String) (method : Method)
    (data : PutData) (h : TimeoutPolicy w) :
    TimeoutPolicy (myDeviceHandler w email id method data).world := by
  unfold myDeviceHandler
  cases method with
  | PUT =>
    cases hd : mapGet w.devices id with
    | none => exact h
    | some c =>
      simp only []
      apply timeoutPolicy_mapSet _ _ _ h
      rw [applyPut_Timeout]
      cases data.Timeout with
      | none => exact h (id, c) (mem_of_mapGet _ _ _ hd)
      | some t => exact Or.inr (clampTimeout_bounds t)
  | DELETE =>
    intro kv hkv
    exact h kv (List.mem_filter.mp hkv).1
  | other => exact h

/-- C9: if every configuration of `devices` stores a timeout that is 0 or within
[30,300], then after a ping (with auto-registration), a claim, a manifest
pre-registration or a `myDeviceHandler` request with any body, every
configuration still does, and the effective timeout of every device is between
30 and 300 seconds. -/
theorem timeout_policy_invariant (w : World) (op : ConfigOp) (h : TimeoutPolicy w) :
    TimeoutPolicy (applyConfigOp w op) ∧
    ∀ kv ∈ (applyConfigOp w op).devices,
      30 * Second ≤ getDeviceTimeout kv.2 ∧ getDeviceTimeout kv.2 ≤ 300 * Second := by
  have hpol : TimeoutPolicy (applyConfigOp w op) := by
    cases op with
    | ping device now => exact timeoutPolicy_recordPing w _ now h
    | claim email deviceID deviceName => exact timeoutPolicy_claim w email deviceID deviceName h
    | manifest ownerEmail device name botToken chatID now =>
      exact timeoutPolicy_manifest w ownerEmail device name botToken chatID now h
    | myDevice email id method data => exact timeoutPolicy_myDevice w email id method data h
  exact ⟨hpol, fun kv hkv => getDeviceTimeout_of_policy kv.2 (hpol kv hkv)⟩

theorem timeout_policy_invariant_witness :
    TimeoutPolicy claimedWorld ∧
    TimeoutPolicy (applyConfigOp claimedWorld
      (ConfigOp.myDevice "owner@example.com" "d1" Method.PUT (timeoutPut 1000))) ∧
    ∀ kv ∈ (applyConfigOp claimedWorld
        (ConfigOp.myDevice "owner@example.com" "d1" Method.PUT (timeoutPut 1000))).devices,
      30 * Second ≤ getDeviceTimeout kv.2 ∧ getDeviceTimeout kv.2 ≤ 300 * Second :=
  ⟨by decide, timeout_policy_invariant claimedWorld
    (ConfigOp.myDevice "owner@example.com" "d1" Method.PUT (timeoutPut 1000)) (by decide)⟩

/-! ## Bootstrap -/

theorem storedAfter_irrefl (zone : Zone) (a : Time) : storedAfter zone a a = false := by
  unfold storedAfter offsetTextAfter
  simp only [gt_iff_lt, lt_self_iff_false, decide_False, decide_True, Bool.false_or,
    Bool.true_and]
  split <;> simp

theorem offsetTextAfter_asymm (a b : Int) (h : offsetTextAfter a b = true) :
    offsetTextAfter b a = false := by
  unfold offsetTextAfter at h ⊢
  by_cases ha : a < 0 <;> by_cases hb : b < 0 <;> simp [ha, hb] at h ⊢ <;> omega

theorem storedAfter_asymm (zone : Zone) (a b : Time) (h : storedAfter zone a b = true) :
    storedAfter zone b a = false := by
  unfold storedAfter at h ⊢
  simp only [Bool.or_eq_true, Bool.and_eq_true, decide_eq_true_eq] at h
  simp only [Bool.or_eq_false_iff, Bool.and_eq_false_imp, decide_eq_false_iff_not,
    decide_eq_true_eq]
  rcases h with h | ⟨h1, h2⟩
  · exact ⟨by omega, fun he => absurd he (by omega)⟩
  · exact ⟨by omega, fun _ => offsetTextAfter_asymm _ _ h2⟩

theorem storedAfter_same_offset (zone : Zone) (a b : Time) (h : zone a = zone b) :
    storedAfter zone a b = true ↔ a > b := by
  unfold storedAfter wallClock
  rw [h]
  have hirr : offsetTextAfter (zone b) (zone b) = false := by
    unfold offsetTextAfter
    split <;> simp
  simp only [hirr, Bool.and_false, Bool.or_false, decide_eq_true_eq]
  unfold Time at *
  constructor <;> intro h' <;> omega

theorem foldl_newerEvent_stored_last (zone : Zone) (ev : EventRow) (l : List EventRow)
    (acc : Option EventRow)
    (hmax : ∀ e ∈ l, e = ev ∨ storedAfter zone ev.timestamp e.timestamp = true)
    (hacc : acc = some ev ∨
      ((acc = none ∨ ∃ b, acc = some b ∧ storedAfter zone ev.timestamp b.timestamp = true) ∧
        ev ∈ l)) :
    l.foldl (newerEvent zone) acc = some ev := by
  induction l generalizing acc with
  | nil =>
    rcases hacc with h | ⟨_, h⟩
    · simpa using h
    · simp at h
  | cons e rest ih =>
    rw [List.foldl_cons]
    apply ih
    · intro x hx
      exact hmax x (List.mem_cons_of_mem _ hx)
    · have he := hmax e (List.mem_cons_self _ _)
      rcases hacc with h | ⟨h, hmem⟩
      · left
        subst h
        rcases he with he | he
        · subst he
          simp [newerEvent, storedAfter_irrefl]
        · simp [newerEvent, storedAfter_asymm zone _ _ he]
      · rcases he with he | he
        · left
          subst he
          rcases h with h | ⟨b, h, hb⟩
          · subst h
            rfl
          · subst h
            simp [newerEvent, hb]
        · right
          have hne : ev ≠ e := by
            intro h'
            rw [h', storedAfter_irrefl] at he
            exact Bool.noConfusion he
          have hrest : ev ∈ rest := by
            rcases List.mem_cons.mp hmem with h' | h'
            · exact absurd h' hne
            · exact h'
          refine ⟨Or.inr ?_, hrest⟩
          rcases h with h | ⟨b, h, hb⟩
          · subst h
            exact ⟨e, rfl, he⟩
          · subst h
            cases hgt : storedAfter zone e.timestamp b.timestamp with
            | true => exact ⟨e, by simp [newerEvent, hgt], he⟩
            | false => exact ⟨b, by simp [newerEvent, hgt], hb⟩

theorem lastEvent_of_stored_last (zone : Zone) (rows : List EventRow) (deviceID : String)
    (ev : EventRow) (hmem : ev ∈ rows) (hdev : ev.device_id = deviceID)
    (hmax : ∀ e ∈ rows, e.device_id = deviceID → e ≠ ev →
      storedAfter zone ev.timestamp e.timestamp = true) :
    lastEvent zone rows deviceID = some ev := by
  unfold lastEvent
  apply foldl_newerEvent_stored_last
  · intro e he
    have he' := List.mem_filter.mp he
    by_cases heq : e = ev
    · exact Or.inl heq
    · exact Or.inr (hmax e he'.1 (by simpa using he'.2) heq)
  · right
    refine ⟨Or.inl rfl, List.mem_filter.mpr ⟨hmem, by simpa using hdev⟩⟩

theorem bootstrapStates_not_mem (zone : Zone) (rows : List EventRow) (now : Time)
    (keys : List String) (states : List (String × DeviceState)) (k : String) (hk : k ∉ keys) :
    mapGet (bootstrapStates zone rows now keys states) k = mapGet states k := by
  induction keys generalizing states with
  | nil => rfl
  | cons k0 rest ih =>
    unfold bootstrapStates at ih ⊢
    rw [List.foldl_cons, ih _ (fun h => hk (List.mem_cons_of_mem _ h))]
    exact mapGet_mapSet_ne _ _ _ _ (fun h => hk (h ▸ List.mem_cons_self _ _))

theorem bootstrapStates_mem (zone : Zone) (rows : List EventRow) (now : Time)
    (keys : List String) (states : List (String × DeviceState)) (k : String) (hk : k ∈ keys) :
    mapGet (bootstrapStates zone rows now keys states) k =
      some (loadLastState zone rows k now) := by
  induction keys generalizing states with
  | nil => simp at hk
  | cons k0 rest ih =>
    by_cases hr : k ∈ rest
    · unfold bootstrapStates at ih ⊢
      rw [List.foldl_cons]
      exact ih _ hr
    · have hk0 : k = k0 := by
        rcases List.mem_cons.mp hk with h | h
        · exact h
        · exact absurd h hr
      subst hk0
      have := bootstrapStates_not_mem zone rows now rest
        (mapSet states k (loadLastState zone rows k now)) k hr
      unfold bootstrapStates at this ⊢
      rw [List.foldl_cons, this]
      exact mapGet_mapSet_self _ _ _

theorem loadLastState_of_stored_last_down (zone : Zone) (rows : List EventRow)
    (deviceID : String) (now : Time) (ev : EventRow)
    (hmem : ev ∈ rows) (hdev : ev.device_id = deviceID)
    (hmax : ∀ e ∈ rows, e.device_id = deviceID → e ≠ ev →
      storedAfter zone ev.timestamp e.timestamp = true)
    (hkind : ev.event_type = "down") :
    loadLastState zone rows deviceID now =
      { LastPing := zeroTime, IsDown := true, DownSince := ev.timestamp,
        UpSince := zeroTime } := by
  unfold loadLastState
  simp only [lastEvent_of_stored_last zone rows deviceID ev hmem hdev hmax, hkind, if_true]

theorem loadLastState_of_one_offset_down (zone : Zone) (rows : List EventRow)
    (deviceID : String) (now : Time) (ev : EventRow)
    (hmem : ev ∈ rows) (hdev : ev.device_id = deviceID)
    (hzone : ∀ e ∈ rows, e.device_id = deviceID → zone e.timestamp = zone ev.timestamp)
    (hmax : ∀ e ∈ rows, e.device_id = deviceID → e ≠ ev → e.timestamp < ev.timestamp)
    (hkind : ev.event_type = "down") :
    loadLastState zone rows deviceID now =
      { LastPing := zeroTime, IsDown := true, DownSince := ev.timestamp,
        UpSince := zeroTime } := by
  apply loadLastState_of_stored_last_down zone rows deviceID now ev hmem hdev _ hkind
  intro e he hd hne
  exact (storedAfter_same_offset zone ev.timestamp e.timestamp (hzone e he hd).symm).mpr
    (hmax e he hd hne)

/-- C10: evaluation of the code at the failing input. The host is in a zone
that leaves summer time at 01:00 UTC; `d1` has an `up` event written at 00:50
UTC, stored with the local time 03:50 and the offset +03:00, and a `down`
event written at 01:10 UTC, stored with the local time 03:10 and the offset
+02:00. The `down` event is the most recent one, but the stored timestamp of
the `up` event sorts after it, so at the restart at 02:00 UTC the query
returns the `up` event and `loadLastState` leaves `DownSince` at the instant
of the restart, not at the instant of the `down` event. On a host that keeps
UTC the same table gives `DownSince` as the instant of the `down` event. -/
theorem bootstrap_from_down_reads_earlier_row :
    ({ device_id := "d1", event_type := "down", timestamp := summerTimeEnd + 600 * Second,
       duration_seconds := some 1080 } : EventRow) ∈ autumnWorld.dbEvents ∧
    (∀ e ∈ autumnWorld.dbEvents, e.device_id = "d1" →
      e.timestamp ≤ summerTimeEnd + 600 * Second) ∧
    storedAfter kyivZone (summerTimeEnd - 600 * Second) (summerTimeEnd + 600 * Second) = true ∧
    lastEvent kyivZone autumnWorld.dbEvents "d1" =
      some { device_id := "d1", event_type := "up", timestamp := summerTimeEnd - 600 * Second,
             duration_seconds := some 300 } ∧
    loadLastState kyivZone autumnWorld.dbEvents "d1" (summerTimeEnd + 3600 * Second) =
      { LastPing := zeroTime, IsDown := true, DownSince := summerTimeEnd + 3600 * Second,
        UpSince := summerTimeEnd - 600 * Second } ∧
    (loadLastState kyivZone autumnWorld.dbEvents "d1" (summerTimeEnd + 3600 * Second)).DownSince
      ≠ summerTimeEnd + 600 * Second ∧
    mapGet (bootstrap kyivZone autumnWorld (summerTimeEnd + 3600 * Second)).states "d1" =
      some { LastPing := zeroTime, IsDown := true, DownSince := summerTimeEnd + 3600 * Second,
             UpSince := summerTimeEnd - 600 * Second } ∧
    (loadLastState utcZone autumnWorld.dbEvents "d1" (summerTimeEnd + 3600 * Second)).DownSince
      = summerTimeEnd + 600 * Second :=
  ⟨by decide, by decide, by decide, by decide, by decide, by decide, by decide, by decide⟩

/-! ## Bootstrap from an up event or from no event -/

theorem loadLastState_isDown (zone : Zone) (rows : List EventRow) (deviceID : String)
    (now : Time) : (loadLastState zone rows deviceID now).IsDown = true := by
  unfold loadLastState
  cases lastEvent zone rows deviceID with
  | none => rfl
  | some ev =>
    simp only []
    split <;> rfl

theorem loadLastState_of_not_down (zone : Zone) (rows : List EventRow) (deviceID : String)
    (now : Time) (ev : EventRow) (hlast : lastEvent zone rows deviceID = some ev)
    (hkind : ev.event_type ≠ "down") :
    loadLastState zone rows deviceID now =
      { LastPing := zeroTime, IsDown := true, DownSince := now, UpSince := ev.timestamp } := by
  unfold loadLastState
  simp only [hlast, hkind, if_false]

/-- C11: evaluation of the code at the failing input. The last persisted event
of `d1` is an `up` event at instant 300, and the process restarts at instant
1000: `loadLastState` sets `UpSince = 300` and leaves `LastPing` zero, but the
state it returns, which the bootstrap stores, has `IsDown = true` and
`DownSince = 1000`. -/
theorem bootstrap_from_up_stays_down :
    lastEvent utcZone restartedWorld.dbEvents "d1" =
      some { device_id := "d1", event_type := "up", timestamp := 300,
             duration_seconds := some 100 } ∧
    loadLastState utcZone restartedWorld.dbEvents "d1" 1000 =
      { LastPing := zeroTime, IsDown := true, DownSince := 1000, UpSince := 300 } ∧
    mapGet (bootstrap utcZone restartedWorld 1000).states "d1" =
      some { LastPing := zeroTime, IsDown := true, DownSince := 1000, UpSince := 300 } :=
  ⟨by decide, by decide, by decide⟩

theorem statesWF_bootstrap (zone : Zone) (w : World) (now : Time) (hwf : StatesWF w) :
    StatesWF (bootstrap zone w now) := by
  have key : ∀ (keys : List String) (st : List (String × DeviceState)),
      (mapKeys st).Nodup →
        (mapKeys (bootstrapStates zone w.dbEvents now keys st)).Nodup := by
    intro keys
    induction keys with
    | nil => intro st h; exact h
    | cons k rest ih =>
      intro st h
      unfold bootstrapStates
      rw [List.foldl_cons]
      exact ih _ (mapKeys_mapSet_nodup st k _ h)
  exact key (mapKeys w.devices) w.states hwf

theorem sweep_after_bootstrap_silent (zone : Zone) (w : World) (now later : Time)
    (deviceID : String) (hwf : StatesWF w) (hd : deviceID ∈ mapKeys w.devices) :
    deviceID ∉ (sweep (bootstrap zone w now) later).2.map DownTransition.deviceID :=
  (sweep_down_unchanged (bootstrap zone w now) later deviceID
    (loadLastState zone w.dbEvents deviceID now) (statesWF_bootstrap zone w now hwf)
    (bootstrapStates_mem zone w.dbEvents now (mapKeys w.devices) w.states deviceID hd)
    (loadLastState_isDown zone w.dbEvents deviceID now)).1

/-- C12: evaluation of the code at the failing input. After the bootstrap of
`restartedWorld`, whose device `d1` is registered with the default timeout and
has an `up` event as its last persisted event, the first sweep, run a thousand
seconds after the restart with no ping in between, reports no transition and
leaves `d1` as the bootstrap made it, down since the restart. -/
theorem sweep_after_bootstrap_reports_nothing :
    (∃ c, mapGet (bootstrap utcZone restartedWorld 1000).devices "d1" = some c ∧
      getDeviceTimeout c = 90 * Second) ∧
    (sweep (bootstrap utcZone restartedWorld 1000) 1000000001000).2 = [] ∧
    mapGet (sweep (bootstrap utcZone restartedWorld 1000) 1000000001000).1.states "d1" =
      some { LastPing := zeroTime, IsDown := true, DownSince := 1000, UpSince := 300 } :=
  ⟨⟨{ ID := "d1", Name := "Home", ChatID := "", BotToken := "", Configured := false,
      OwnerEmail := "owner@example.com", WifiSSID := "", Paused := false, Timeout := 0 },
    by decide, by decide⟩, by decide, by decide⟩

theorem lastEvent_eq_none (zone : Zone) (rows : List EventRow) (deviceID : String)
    (hnone : ∀ e ∈ rows, e.device_id ≠ deviceID) : lastEvent zone rows deviceID = none := by
  unfold lastEvent
  have : rows.filter (fun e => decide (e.device_id = deviceID)) = [] := by
    rw [List.filter_eq_nil_iff]
    intro e he
    simpa using hnone e he
  rw [this]
  rfl

/-- C13: for a device with no persisted event, the state that `loadLastState`
produces at the instant `now` has `IsDown = true`, `DownSince = now` and a zero
`LastPing` (and a zero `UpSince`), and that is the state that the bootstrap
stores for the device when it is in `devices`; this holds in every zone of the
host. -/
theorem bootstrap_no_event (zone : Zone) (w : World) (deviceID : String) (now : Time)
    (hnone : ∀ e ∈ w.dbEvents, e.device_id ≠ deviceID) :
    loadLastState zone w.dbEvents deviceID now =
      { LastPing := zeroTime, IsDown := true, DownSince := now, UpSince := zeroTime } ∧
    (deviceID ∈ mapKeys w.devices →
      mapGet (bootstrap zone w now).states deviceID =
        some { LastPing := zeroTime, IsDown := true, DownSince := now, UpSince := zeroTime }) := by
  have hload : loadLastState zone w.dbEvents deviceID now =
      { LastPing := zeroTime, IsDown := true, DownSince := now, UpSince := zeroTime } := by
    unfold loadLastState
    rw [lastEvent_eq_none zone w.dbEvents deviceID hnone]
  refine ⟨hload, fun hk => ?_⟩
  rw [← hload]
  exact bootstrapStates_mem zone w.dbEvents now (mapKeys w.devices) w.states deviceID hk

theorem bootstrap_no_event_witness :
    loadLastState kyivZone claimedWorld.dbEvents "d1" 1000 =
      { LastPing := zeroTime, IsDown := true, DownSince := 1000, UpSince := zeroTime } ∧
    ("d1" ∈ mapKeys claimedWorld.devices →
      mapGet (bootstrap kyivZone claimedWorld 1000).states "d1" =
        some { LastPing := zeroTime, IsDown := true, DownSince := 1000,
               UpSince := zeroTime }) :=
  bootstrap_no_event kyivZone claimedWorld "d1" 1000 (by decide)

/-! ## The handlers with their effects -/

theorem mapGet_none_keys {β : Type} (m : List (String × β)) (k : String)
    (h : mapGet m k = none) : ∀ kv ∈ m, kv.1 ≠ k := by
  intro kv hkv hk
  have := (mapGet_eq_none_iff m k).mp h
  exact this (List.mem_map.mpr ⟨kv, hkv, hk⟩)

theorem mapSet_of_none {β : Type} (m : List (String × β)) (k : String) (v : β)
    (h : mapGet m k = none) : mapSet m k v = m ++ [(k, v)] := by
  induction m with
  | nil => rfl
  | cons kv rest ih =>
    obtain ⟨k1, v1⟩ := kv
    by_cases hk : k1 = k
    · simp [mapGet, hk] at h
    · simp only [mapGet, hk, if_false] at h
      simp only [mapSet, hk, if_false, ih h, List.cons_append]

theorem mapGet_append_singleton {β : Type} (m : List (String × β)) (k : String) (v : β)
    (h : mapGet m k = none) : mapGet (m ++ [(k, v)]) k = some v := by
  rw [← mapSet_of_none m k v h]
  exact mapGet_mapSet_self m k v

theorem mapGet_apiStatusHandler (w : World) (now : Time) (id : String) :
    mapGet (apiStatusHandler w now) id = (mapGet w.devices id).map (deviceStatus w now id) := by
  unfold apiStatusHandler
  induction w.devices with
  | nil => rfl
  | cons kv rest ih =>
    obtain ⟨k, c⟩ := kv
    by_cases hk : k = id
    · subst hk
      simp [mapGet]
    · simp [mapGet, hk, ih]

theorem status_of_state (w : World) (now : Time) (id : String) (c : DeviceConfig)
    (s : DeviceState) (hc : mapGet w.devices id = some c) (hs : mapGet w.states id = some s) :
    mapGet (apiStatusHandler w now) id =
      some { name := c.Name, status := if s.IsDown then "down" else "up",
             last_ping := s.LastPing,
             since := if s.IsDown then s.DownSince else s.UpSince,
             configured := c.Configured } := by
  rw [mapGet_apiStatusHandler, hc]
  simp only [Option.map_some', deviceStatus, hs]

theorem recordPing_dbEvents (w : World) (deviceID : String) (now : Time) :
    (recordPing w deviceID now).world.dbEvents = w.dbEvents := by
  unfold recordPing
  cases mapGet w.devices deviceID <;> rfl

theorem recordPing_devices_of_known (w : World) (deviceID : String) (now : Time)
    (c : DeviceConfig) (hc : mapGet w.devices deviceID = some c) :
    (recordPing w deviceID now).world.devices = w.devices ∧
      (recordPing w deviceID now).config = c := by
  simp [recordPing, hc]

theorem pingHandler_states (env : TelegramEnv) (clock : Time → String) (w : World)
    (device : String) (now : Time) :
    (pingHandler env clock w device now).world.states =
      (recordPing w (pingDeviceID device) now).world.states := by
  unfold pingHandler
  simp only []
  split
  · split <;> rfl
  · rfl

theorem pingHandler_devices (env : TelegramEnv) (clock : Time → String) (w : World)
    (device : String) (now : Time) :
    (pingHandler env clock w device now).world.devices =
      (recordPing w (pingDeviceID device) now).world.devices := by
  unfold pingHandler
  simp only []
  split
  · split <;> rfl
  · rfl

theorem pingHandler_dbEvents (env : TelegramEnv) (clock : Time → String) (w : World)
    (device : String) (now : Time) :
    (pingHandler env clock w device now).world.dbEvents =
      if (recordPing w (pingDeviceID device) now).wasDown then
        saveEvent w.dbEvents (pingDeviceID device) "up" now
          (Duration.Seconds
            (timeSince now (recordPing w (pingDeviceID device) now).downTime)).toInt
      else w.dbEvents := by
  unfold pingHandler
  simp only []
  split
  · split <;> simp only [recordPing_dbEvents]
  · rw [recordPing_dbEvents]

theorem foldl_saveDownEvent (now : Time) (trs : List DownTransition) (rows : List EventRow) :
    trs.foldl (saveDownEvent now) rows = rows ++ trs.map (downEventRow now) := by
  induction trs generalizing rows with
  | nil => simp
  | cons tr rest ih =>
    rw [List.foldl_cons, ih]
    simp [saveDownEvent, saveEvent, downEventRow]

theorem monitorTick_dbEvents (env : TelegramEnv) (clock : Time → String) (w : World)
    (now : Time) :
    (monitorTick env clock w now).world.dbEvents =
      w.dbEvents ++ (sweep w now).2.map (downEventRow now) := by
  unfold monitorTick
  simp only []
  rw [foldl_saveDownEvent]
  rfl

theorem monitorTick_states (env : TelegramEnv) (clock : Time → String) (w : World)
    (now : Time) :
    (monitorTick env clock w now).world.states = (sweep w now).1.states := rfl

theorem monitorTick_devices (env : TelegramEnv) (clock : Time → String) (w : World)
    (now : Time) :
    (monitorTick env clock w now).world.devices = w.devices := rfl

/-! ## The end-to-end scenario -/

theorem timeSince_add (t : Time) (d : Duration) (h0 : 0 ≤ d) (hmax : d ≤ maxDuration) :
    timeSince (t + d) t = d := by
  unfold timeSince
  have hd : t + d - t = d := by
    unfold Time Duration at *
    omega
  rw [timeSub_exact (t + d) t (by rw [hd]; unfold minDuration; unfold Duration at *; omega)
    (by rw [hd]; exact hmax)]
  exact hd

theorem sweepTransitions_other (devices : List (String × DeviceConfig)) (now : Time)
    (states : List (String × DeviceState)) (deviceID : String)
    (h : mapGet states deviceID = none) :
    ((sweepTransitions devices now states).map (downEventRow now)).filter
      (fun e => decide (e.device_id = deviceID)) = [] := by
  rw [List.filter_eq_nil_iff]
  intro e he
  obtain ⟨tr, htr, hrow⟩ := List.mem_map.mp he
  obtain ⟨kv, hkv, hs⟩ := (mem_sweepTransitions devices now states tr).mp htr
  have hid := (sweepState_transition devices now kv.1 kv.2 tr hs).2
  have hne := mapGet_none_keys states deviceID h kv hkv
  rw [← hrow]
  simp only [downEventRow, decide_eq_true_eq]
  rw [hid]
  exact hne

/-- C14: for the device `d1`, unknown to the maps `devices` and `states` and
with no persisted event, and a first ping at the instant `t0` (the instant 0 of
the scenario): after the ping the status is `up` since `t0` and `d1` has no
event; after the monitor runs 95 seconds later the status is `down` since `t0`
and `d1` has exactly one event, a `down` event of duration 0; after the ping
100 seconds after the first one the status is `up` since that ping and `d1`
has one more event, an `up` event of duration 100 seconds. -/
theorem end_to_end_scenario (env : TelegramEnv) (clock : Time → String) (w : World)
    (t0 : Time) (hdev : mapGet w.devices "d1" = none) (hst : mapGet w.states "d1" = none)
    (hev : ∀ e ∈ w.dbEvents, e.device_id ≠ "d1") :
    (∃ st, mapGet (apiStatusHandler (scenarioPing env clock w t0).world t0) "d1" = some st ∧
      st.status = "up" ∧ st.since = t0) ∧
    eventsOf (scenarioPing env clock w t0).world "d1" = [] ∧
    (∃ st, mapGet (apiStatusHandler (scenarioSweep env clock w t0).world (t0 + 95 * Second))
        "d1" = some st ∧ st.status = "down" ∧ st.since = t0) ∧
    eventsOf (scenarioSweep env clock w t0).world "d1" =
      [{ device_id := "d1", event_type := "down", timestamp := t0 + 95 * Second,
         duration_seconds := some 0 }] ∧
    (∃ st, mapGet (apiStatusHandler (scenarioPingAgain env clock w t0).world
        (t0 + 100 * Second)) "d1" = some st ∧
      st.status = "up" ∧ st.since = t0 + 100 * Second) ∧
    eventsOf (scenarioPingAgain env clock w t0).world "d1" =
      [{ device_id := "d1", event_type := "down", timestamp := t0 + 95 * Second,
         duration_seconds := some 0 },
       { device_id := "d1", event_type := "up", timestamp := t0 + 100 * Second,
         duration_seconds := some 100 }] := by
  have hid : pingDeviceID "d1" = "d1" := by decide
  -- the first ping
  have hwd1 : (recordPing w "d1" t0).wasDown = false := by
    rw [recordPing_wasDown, hst]
  have hs1 : (scenarioPing env clock w t0).world.states =
      w.states ++ [("d1", { LastPing := t0, IsDown := false, DownSince := zeroTime,
                            UpSince := t0 })] := by
    unfold scenarioPing
    rw [pingHandler_states, hid, recordPing_states, hst]
    exact mapSet_of_none _ _ _ hst
  have hcfg : (recordPing w "d1" t0).config =
      { ID := "d1", Name := "d1", ChatID := "", BotToken := "", Configured := false,
        OwnerEmail := "", WifiSSID := "", Paused := false, Timeout := 0 } := by
    simp [recordPing, hdev]
  have hd1 : mapGet (scenarioPing env clock w t0).world.devices "d1" =
      some { ID := "d1", Name := "d1", ChatID := "", BotToken := "", Configured := false,
             OwnerEmail := "", WifiSSID := "", Paused := false, Timeout := 0 } := by
    unfold scenarioPing
    rw [pingHandler_devices, hid, recordPing_config, hcfg]
  have he1 : (scenarioPing env clock w t0).world.dbEvents = w.dbEvents := by
    unfold scenarioPing
    rw [pingHandler_dbEvents, hid, hwd1]
    rfl
  have hnoev : w.dbEvents.filter (fun e => decide (e.device_id = "d1")) = [] := by
    rw [List.filter_eq_nil_iff]
    intro e he
    simpa using hev e he
  have hg1 : mapGet (scenarioPing env clock w t0).world.states "d1" =
      some { LastPing := t0, IsDown := false, DownSince := zeroTime, UpSince := t0 } := by
    rw [hs1]
    exact mapGet_append_singleton _ _ _ hst
  -- the sweep
  have hlate : t0 + 95 * Second - t0 > getDeviceTimeout
      { ID := "d1", Name := "d1", ChatID := "", BotToken := "", Configured := false,
        OwnerEmail := "", WifiSSID := "", Paused := false, Timeout := 0 } := by
    have : t0 + 95 * Second - t0 = 95 * Second := by
      unfold Time Duration at *
      omega
    rw [this]
    decide
  have hsel := sweepState_selected (scenarioPing env clock w t0).world.devices
    (t0 + 95 * Second) "d1"
    { LastPing := t0, IsDown := false, DownSince := zeroTime, UpSince := t0 } _ hd1 rfl hlate
  have hg2 : mapGet (scenarioSweep env clock w t0).world.states "d1" =
      some { LastPing := t0, IsDown := true, DownSince := t0, UpSince := t0 } := by
    unfold scenarioSweep
    rw [monitorTick_states]
    show mapGet (sweepStates _ _ _) "d1" = _
    rw [mapGet_sweepStates, hg1, Option.map_some', hsel]
  have hd2 : (scenarioSweep env clock w t0).world.devices =
      (scenarioPing env clock w t0).world.devices := by
    unfold scenarioSweep
    rw [monitorTick_devices]
  have hzero : timeSub t0 t0 = 0 := by
    have := timeSince_add t0 0 (le_refl _) (by decide)
    unfold timeSince at this
    simpa using this
  have he2 : eventsOf (scenarioSweep env clock w t0).world "d1" =
      [{ device_id := "d1", event_type := "down", timestamp := t0 + 95 * Second,
         duration_seconds := some 0 }] := by
    unfold eventsOf scenarioSweep
    rw [monitorTick_dbEvents, he1]
    show List.filter _ (w.dbEvents ++
      (sweepTransitions _ _ (scenarioPing env clock w t0).world.states).map _) = _
    rw [hs1]
    unfold sweepTransitions
    rw [List.filterMap_append, List.map_append, List.filter_append, List.filter_append, hnoev]
    have hother := sweepTransitions_other (scenarioPing env clock w t0).world.devices
      (t0 + 95 * Second) w.states "d1" hst
    unfold sweepTransitions at hother
    rw [hother]
    simp only [List.filterMap_cons, List.filterMap_nil, hsel, List.nil_append, List.map_cons,
      List.map_nil, downEventRow, hzero]
    have hsec : (Duration.Seconds 0).toInt = 0 := by decide
    rw [hsec]
    simp
  -- the second ping
  have hwd3 : (recordPing (scenarioSweep env clock w t0).world "d1"
      (t0 + 100 * Second)).wasDown = true := by
    rw [recordPing_wasDown, hg2]
  have hdt3 : (recordPing (scenarioSweep env clock w t0).world "d1"
      (t0 + 100 * Second)).downTime = t0 := by
    rw [recordPing_downTime, hg2]
  have hg3 : mapGet (scenarioPingAgain env clock w t0).world.states "d1" =
      some { LastPing := t0 + 100 * Second, IsDown := false, DownSince := t0,
             UpSince := t0 + 100 * Second } := by
    unfold scenarioPingAgain
    rw [pingHandler_states, hid, recordPing_states, mapGet_mapSet_self, hg2]
    rfl
  have hd3 : mapGet (scenarioPingAgain env clock w t0).world.devices "d1" =
      some (recordPing (scenarioSweep env clock w t0).world "d1" (t0 + 100 * Second)).config := by
    unfold scenarioPingAgain
    rw [pingHandler_devices, hid, recordPing_config]
  have he3 : eventsOf (scenarioPingAgain env clock w t0).world "d1" =
      [{ device_id := "d1", event_type := "down", timestamp := t0 + 95 * Second,
         duration_seconds := some 0 },
       { device_id := "d1", event_type := "up", timestamp := t0 + 100 * Second,
         duration_seconds := some 100 }] := by
    have hprev := he2
    unfold eventsOf at hprev ⊢
    unfold scenarioPingAgain
    rw [pingHandler_dbEvents, hid, hwd3, if_pos rfl, hdt3,
      timeSince_add t0 (100 * Second) (by decide) (by decide)]
    have hsec : (Duration.Seconds (100 * Second)).toInt = 100 := by decide
    rw [hsec]
    unfold saveEvent
    rw [List.filter_append, hprev]
    simp
  refine ⟨⟨_, status_of_state _ t0 "d1" _ _ hd1 hg1, rfl, rfl⟩, ?_,
    ⟨_, status_of_state _ _ "d1" _ _ (hd2 ▸ hd1) hg2, rfl, rfl⟩, he2,
    ⟨_, status_of_state _ _ "d1" _ _ hd3 hg3, rfl, rfl⟩, he3⟩
  unfold eventsOf
  rw [he1]
  exact hnoev

theorem end_to_end_scenario_witness :
    (∃ st, mapGet (apiStatusHandler (scenarioPing failingSend sampleClock emptyWorld 0).world 0)
        "d1" = some st ∧ st.status = "up" ∧ st.since = 0) ∧
    eventsOf (scenarioPing failingSend sampleClock emptyWorld 0).world "d1" = [] ∧
    (∃ st, mapGet (apiStatusHandler (scenarioSweep failingSend sampleClock emptyWorld 0).world
        (0 + 95 * Second)) "d1" = some st ∧ st.status = "down" ∧ st.since = 0) ∧
    eventsOf (scenarioSweep failingSend sampleClock emptyWorld 0).world "d1" =
      [{ device_id := "d1", event_type := "down", timestamp := 0 + 95 * Second,
         duration_seconds := some 0 }] ∧
    (∃ st, mapGet (apiStatusHandler (scenarioPingAgain failingSend sampleClock emptyWorld
        0).world (0 + 100 * Second)) "d1" = some st ∧
      st.status = "up" ∧ st.since = 0 + 100 * Second) ∧
    eventsOf (scenarioPingAgain failingSend sampleClock emptyWorld 0).world "d1" =
      [{ device_id := "d1", event_type := "down", timestamp := 0 + 95 * Second,
         duration_seconds := some 0 },
       { device_id := "d1", event_type := "up", timestamp := 0 + 100 * Second,
         duration_seconds := some 100 }] :=
  end_to_end_scenario failingSend sampleClock emptyWorld 0 rfl rfl (by decide)

/-! ## Runs that differ in the notification flags -/

theorem mapGet_map_values {β γ : Type} (m : List (String × β)) (f : β → γ) (k : String) :
    mapGet (m.map (fun kv => (kv.1, f kv.2))) k = (mapGet m k).map f := by
  induction m with
  | nil => rfl
  | cons kv rest ih =>
    obtain ⟨k1, v1⟩ := kv
    by_cases hk : k1 = k
    · simp [mapGet, hk]
    · simp [mapGet, hk, ih]

theorem map_values_mapSet {β γ : Type} (m : List (String × β)) (f : β → γ) (k : String)
    (v : β) :
    (mapSet m k v).map (fun kv => (kv.1, f kv.2)) =
      mapSet (m.map (fun kv => (kv.1, f kv.2))) k (f v) := by
  induction m with
  | nil => rfl
  | cons kv rest ih =>
    obtain ⟨k1, v1⟩ := kv
    by_cases hk : k1 = k
    · simp [mapSet, hk]
    · simp [mapSet, hk, ih]

theorem sameUpToFlags_get (w1 w2 : World) (h : SameUpToFlags w1 w2) (k : String) :
    (mapGet w1.devices k).map eraseFlags = (mapGet w2.devices k).map eraseFlags := by
  rw [← mapGet_map_values, ← mapGet_map_values, h.2.2]

theorem getDeviceTimeout_eraseFlags (c1 c2 : DeviceConfig)
    (h : eraseFlags c1 = eraseFlags c2) : getDeviceTimeout c1 = getDeviceTimeout c2 := by
  have ht : (eraseFlags c1).Timeout = (eraseFlags c2).Timeout := by rw [h]
  have ht : c1.Timeout = c2.Timeout := ht
  unfold getDeviceTimeout
  rw [ht]

theorem sweepState_flags {α : Type} (d1 d2 : List (String × DeviceConfig)) (now : Time)
    (k : String) (s : DeviceState) (f : DownTransition → α)
    (hf : ∀ tr : DownTransition, f tr = f { tr with notify := false })
    (h : (mapGet d1 k).map eraseFlags = (mapGet d2 k).map eraseFlags) :
    (sweepState d1 now k s).1 = (sweepState d2 now k s).1 ∧
      (sweepState d1 now k s).2.map f = (sweepState d2 now k s).2.map f := by
  unfold sweepState
  cases h1 : mapGet d1 k with
  | none =>
    cases h2 : mapGet d2 k with
    | none => exact ⟨rfl, rfl⟩
    | some c2 => rw [h1, h2] at h; simp at h
  | some c1 =>
    cases h2 : mapGet d2 k with
    | none => rw [h1, h2] at h; simp at h
    | some c2 =>
      rw [h1, h2] at h
      simp only [Option.map_some', Option.some.injEq] at h
      have ht := getDeviceTimeout_eraseFlags c1 c2 h
      simp only [ht]
      split
      · refine ⟨rfl, ?_⟩
        simp only [Option.map_some', Option.some.injEq]
        rw [hf, hf { deviceID := k, upDuration := _, notify := c2.Configured && !c2.Paused }]
      · exact ⟨rfl, rfl⟩

theorem sweep_flags {α : Type} (w1 w2 : World) (h : SameUpToFlags w1 w2) (now : Time)
    (f : DownTransition → α)
    (hf : ∀ tr : DownTransition, f tr = f { tr with notify := false }) :
    (sweep w1 now).1.states = (sweep w2 now).1.states ∧
      (sweep w1 now).2.map f = (sweep w2 now).2.map f := by
  constructor
  · show sweepStates w1.devices now w1.states = sweepStates w2.devices now w2.states
    rw [h.1]
    unfold sweepStates
    apply List.map_congr_left
    intro kv _
    rw [(sweepState_flags w1.devices w2.devices now kv.1 kv.2 f hf
      (sameUpToFlags_get w1 w2 h kv.1)).1]
  · show (sweepTransitions w1.devices now w1.states).map f =
      (sweepTransitions w2.devices now w2.states).map f
    rw [h.1]
    unfold sweepTransitions
    rw [List.map_filterMap, List.map_filterMap]
    apply List.filterMap_congr
    intro kv _
    exact (sweepState_flags w1.devices w2.devices now kv.1 kv.2 f hf
      (sameUpToFlags_get w1 w2 h kv.1)).2

theorem recordPing_flags (w1 w2 : World) (h : SameUpToFlags w1 w2) (deviceID : String)
    (now : Time) :
    (recordPing w1 deviceID now).world.states = (recordPing w2 deviceID now).world.states ∧
    (recordPing w1 deviceID now).wasDown = (recordPing w2 deviceID now).wasDown ∧
    (recordPing w1 deviceID now).downTime = (recordPing w2 deviceID now).downTime ∧
    (recordPing w1 deviceID now).world.devices.map (fun kv => (kv.1, eraseFlags kv.2)) =
      (recordPing w2 deviceID now).world.devices.map (fun kv => (kv.1, eraseFlags kv.2)) := by
  refine ⟨?_, ?_, ?_, ?_⟩
  · rw [recordPing_states, recordPing_states, h.1]
  · rw [recordPing_wasDown, recordPing_wasDown, h.1]
  · rw [recordPing_downTime, recordPing_downTime, h.1]
  · have hg := sameUpToFlags_get w1 w2 h deviceID
    unfold recordPing
    cases h1 : mapGet w1.devices deviceID with
    | none =>
      cases h2 : mapGet w2.devices deviceID with
      | none =>
        simp only []
        rw [map_values_mapSet, map_values_mapSet, h.2.2]
      | some c2 => rw [h1, h2] at hg; simp at hg
    | some c1 =>
      cases h2 : mapGet w2.devices deviceID with
      | none => rw [h1, h2] at hg; simp at hg
      | some c2 => exact h.2.2

theorem transition_notify (w : World) (now : Time) (tr : DownTransition)
    (htr : tr ∈ (sweep w now).2) :
    ∃ c, mapGet w.devices tr.deviceID = some c ∧ tr.notify = (c.Configured && !c.Paused) := by
  obtain ⟨kv, _, hs⟩ := (mem_sweepTransitions w.devices now w.states tr).mp htr
  obtain ⟨⟨c, hc, hup, hlate⟩, hk⟩ := sweepState_transition w.devices now kv.1 kv.2 tr hs
  rw [sweepState_selected w.devices now kv.1 kv.2 c hc hup hlate] at hs
  simp only [Option.some.injEq] at hs
  rw [hk]
  refine ⟨c, hc, ?_⟩
  rw [← hs]

theorem pingHandler_notified (env : TelegramEnv) (clock : Time → String) (w : World)
    (device : String) (now : Time) (d : String) :
    d ∈ (pingHandler env clock w device now).notified ↔
      d = pingDeviceID device ∧
        (recordPing w (pingDeviceID device) now).wasDown = true ∧
        (recordPing w (pingDeviceID device) now).config.Configured = true ∧
        (recordPing w (pingDeviceID device) now).config.Paused = false := by
  unfold pingHandler
  simp only []
  cases hwd : (recordPing w (pingDeviceID device) now).wasDown <;>
    cases hcf : (recordPing w (pingDeviceID device) now).config.Configured <;>
    cases hpa : (recordPing w (pingDeviceID device) now).config.Paused <;> simp

theorem monitorTick_notified (env : TelegramEnv) (clock : Time → String) (w : World)
    (now : Time) (d : String) :
    d ∈ (monitorTick env clock w now).notified ↔
      d ∈ (sweep w now).2.map DownTransition.deviceID ∧
        ∃ c, mapGet w.devices d = some c ∧ c.Configured = true ∧ c.Paused = false := by
  show d ∈ ((sweep w now).2.filter (fun tr => tr.notify)).map DownTransition.deviceID ↔ _
  constructor
  · intro hd
    obtain ⟨tr, htr, hid⟩ := List.mem_map.mp hd
    obtain ⟨hmem, hn⟩ := List.mem_filter.mp htr
    obtain ⟨c, hc, hnot⟩ := transition_notify w now tr hmem
    rw [hid] at hc
    refine ⟨List.mem_map.mpr ⟨tr, hmem, hid⟩, c, hc, ?_⟩
    rw [hnot] at hn
    simpa using hn
  · rintro ⟨hd, c, hc, hcf, hpa⟩
    obtain ⟨tr, hmem, hid⟩ := List.mem_map.mp hd
    obtain ⟨c', hc', hnot⟩ := transition_notify w now tr hmem
    rw [hid, hc] at hc'
    cases hc'
    refine List.mem_map.mpr ⟨tr, List.mem_filter.mpr ⟨hmem, ?_⟩, hid⟩
    rw [hnot, hcf, hpa]
    rfl

theorem setChatPhoto_delete (env : TelegramEnv) (botToken chatID photoPath : String)
    (afterMsgID : Int) (b c : String) (id : Int)
    (h : TelegramCall.deleteMessage b c id ∈ setChatPhoto env botToken chatID photoPath
      afterMsgID) : 0 < afterMsgID ∧ id = afterMsgID + 1 := by
  unfold setChatPhoto at h
  split at h
  · simp at h
  · split at h
    · simp at h
    · split at h
      · split at h
        · rename_i hpos
          simp at h
          exact ⟨hpos, h.2.2⟩
        · simp at h
      · simp at h

theorem sendTelegram_calls (env : TelegramEnv) (botToken chatID text : String)
    (b c : String) (id : Int) :
    TelegramCall.deleteMessage b c id ∉ (sendTelegram env botToken chatID text).2 ∧
      ∀ p, TelegramCall.setChatPhoto b c p ∉ (sendTelegram env botToken chatID text).2 := by
  unfold sendTelegram
  split
  · simp
  · cases env.sendResult <;> simp

theorem sendTelegram_result (env : TelegramEnv) (botToken chatID text : String)
    (hpos : 0 < (sendTelegram env botToken chatID text).1) :
    env.sendResult = some (sendTelegram env botToken chatID text).1 := by
  unfold sendTelegram at hpos ⊢
  split
  · rename_i h
    rw [if_pos h] at hpos
    exact absurd hpos (lt_irrefl _)
  · rename_i h
    rw [if_neg h] at hpos
    cases hr : env.sendResult with
    | none =>
      rw [hr] at hpos
      exact absurd hpos (lt_irrefl _)
    | some m => rfl

theorem notifyTransition_delete (env : TelegramEnv) (botToken chatID text photoPath : String)
    (b c : String) (id : Int)
    (h : TelegramCall.deleteMessage b c id ∈
      notifyTransition env botToken chatID text photoPath) :
    ∃ m, env.sendResult = some m ∧ 0 < m ∧ id = m + 1 ∧
      (sendTelegram env botToken chatID text).1 = m := by
  unfold notifyTransition at h
  simp only [List.mem_append] at h
  rcases h with h | h
  · exact absurd h (sendTelegram_calls env botToken chatID text b c id).1
  · obtain ⟨hpos, hid⟩ := setChatPhoto_delete env botToken chatID photoPath _ b c id h
    exact ⟨_, sendTelegram_result env botToken chatID text hpos, hpos, hid, rfl⟩

/-- C17: `saveEvent` appends exactly one row, with the given device, kind,
timestamp and duration, after the existing rows, which it leaves as they are;
it does so also when the last persisted event of the device has the same kind,
which the log condition detects; this holds in every zone of the host. -/
theorem saveEvent_appends (zone : Zone) (rows : List EventRow) (deviceID eventType : String)
    (ts : Time) (durationSec : Int) :
    saveEvent rows deviceID eventType ts durationSec =
      rows ++ [{ device_id := deviceID, event_type := eventType, timestamp := ts,
                 duration_seconds := some durationSec }] ∧
    (saveEvent rows deviceID eventType ts durationSec).length = rows.length + 1 ∧
    (∀ i, i < rows.length →
      (saveEvent rows deviceID eventType ts durationSec)[i]? = rows[i]?) ∧
    (∀ ev, lastEvent zone rows deviceID = some ev → ev.event_type = eventType →
      saveEventDuplicate zone rows deviceID eventType = true ∧
        saveEvent rows deviceID eventType ts durationSec =
          rows ++ [{ device_id := deviceID, event_type := eventType, timestamp := ts,
                     duration_seconds := some durationSec }]) := by
  refine ⟨rfl, ?_, ?_, ?_⟩
  · simp [saveEvent]
  · intro i hi
    unfold saveEvent
    exact List.getElem?_append_left hi
  · intro ev hlast hkind
    refine ⟨?_, rfl⟩
    unfold saveEventDuplicate
    simp [hlast, hkind]

theorem saveEvent_appends_witness :
    saveEventDuplicate utcZone outageWorld.dbEvents "d1" "down" = true ∧
      saveEvent outageWorld.dbEvents "d1" "down" 400 7 =
        outageWorld.dbEvents ++ [{ device_id := "d1", event_type := "down", timestamp := 400,
                                   duration_seconds := some 7 }] :=
  (saveEvent_appends utcZone outageWorld.dbEvents "d1" "down" 400 7).2.2.2
    { device_id := "d1", event_type := "down", timestamp := 200, duration_seconds := some 100 }
    (by decide) rfl

/-! ## History query -/

theorem historyLimit_le (l : LimitParam) : historyLimit l ≤ 100 := by
  unfold historyLimit
  simp only []
  split <;> omega

theorem historyRows_length_le (zone : Zone) (rows : List EventRow) (id : String)
    (l : LimitParam) (h : 0 ≤ historyLimit l) :
    (historyRows zone rows id (historyLimit l)).length ≤ 100 := by
  unfold historyRows sqlLimit
  rw [if_neg (by omega)]
  have := historyLimit_le l
  rw [List.length_take]
  omega

theorem historyRows_negative (zone : Zone) (rows : List EventRow) (id : String)
    (limit : Int) (h : limit < 0) :
    (historyRows zone rows id limit).length =
      (rows.filter (fun e => decide (e.device_id = id))).length := by
  unfold historyRows sqlLimit
  rw [if_pos h, List.length_insertionSort]

/-- C18: evaluation of the code at the failing input. With 101 persisted events
of `d1` and the query parameter `limit=-1`, the variable `limit` stays -1, which
SQLite takes as no limit, and the history of `d1` holds all 101 events, in
every zone of the host. -/
theorem history_unbounded_for_negative_limit (zone : Zone) :
    historyLimit (LimitParam.integer (-1)) = -1 ∧
    (eventsOf longHistoryWorld "d1").length = 101 ∧
    ∃ evs, mapGet (historyHandler zone longHistoryWorld "d1" (LimitParam.integer (-1))) "d1" =
        some evs ∧ evs.length = 101 := by
  have hlen : (eventsOf longHistoryWorld "d1").length = 101 := by decide
  refine ⟨by decide, hlen, historyRows zone longHistoryWorld.dbEvents "d1" (-1), ?_, ?_⟩
  · have hl : historyLimit (LimitParam.integer (-1)) = -1 := by decide
    have hne : ("d1" : String) ≠ "" := by decide
    simp only [historyHandler, hne, ne_eq, not_false_eq_true, if_true, List.foldl_cons,
      List.foldl_nil, hl, mapSet, mapGet]
  · rw [historyRows_negative zone _ _ _ (by decide)]
    exact hlen

/-! ## Device management without a check -/

/-- C19: evaluation of the code at the failing inputs. A `DELETE` of `d1` with
no session is answered with the errors 401 and 404 and still removes the
device, its state and its events; a `PUT` for `d1` by a user who is not its
owner is answered with the error 404 and still writes the timeout. -/
theorem rejected_requests_take_effect :
    (∃ c, mapGet outageWorld.devices "d1" = some c ∧ c.OwnerEmail = "owner@example.com") ∧
    (myDeviceHandler outageWorld "" "d1" Method.DELETE (timeoutPut 0)).errors = [401, 404] ∧
    (myDeviceHandler outageWorld "" "d1" Method.DELETE (timeoutPut 0)).world ≠ outageWorld ∧
    mapGet (myDeviceHandler outageWorld "" "d1" Method.DELETE (timeoutPut 0)).world.devices
      "d1" = none ∧
    mapGet (myDeviceHandler outageWorld "" "d1" Method.DELETE (timeoutPut 0)).world.states
      "d1" = none ∧
    (myDeviceHandler outageWorld "" "d1" Method.DELETE (timeoutPut 0)).world.dbEvents = [] ∧
    (myDeviceHandler outageWorld "mallory@example.com" "d1" Method.PUT
      (timeoutPut 300)).errors = [404] ∧
    (myDeviceHandler outageWorld "mallory@example.com" "d1" Method.PUT
      (timeoutPut 300)).world ≠ outageWorld ∧
    (∃ c, mapGet (myDeviceHandler outageWorld "mallory@example.com" "d1" Method.PUT
        (timeoutPut 300)).world.devices "d1" = some c ∧ c.Timeout = 300) :=
  ⟨⟨{ ID := "d1", Name := "Home", ChatID := "", BotToken := "", Configured := false,
      OwnerEmail := "owner@example.com", WifiSSID := "", Paused := false, Timeout := 0 },
    by decide, rfl⟩,
   by decide, by decide, by decide, by decide, by decide, by decide, by decide,
   ⟨{ ID := "d1", Name := "Home", ChatID := "", BotToken := "", Configured := false,
      OwnerEmail := "owner@example.com", WifiSSID := "", Paused := false, Timeout := 300 },
    by decide, rfl⟩⟩

/-! ## Rendering of durations -/

/-- C20: evaluation of the code at the failing inputs. For the duration of 4096
hours, 59 minutes and 59.999999999 seconds, which has 245819 whole minutes,
that is 4096 hours and 59 minutes, `formatDuration` renders 4097 hours, because
the sum of `d.Hours()` is rounded up to 4097; for the duration of 262144
minutes and 59.999999999 seconds, that is 4369 hours and 4 minutes, it renders
5 minutes, because the sum of `d.Minutes()` is rounded up to 262145. -/
theorem formatDuration_rounds_up :
    (0 : Duration) ≤ 4096 * Hour + 59 * Minute + 59 * Second + 999999999 ∧
    (4096 * Hour + 59 * Minute + 59 * Second + 999999999) / Minute = 245819 ∧
    (245819 : Int) / 60 = 4096 ∧ (245819 : Int) % 60 = 59 ∧
    formatDuration (4096 * Hour + 59 * Minute + 59 * Second + 999999999) = "4097год 59хв" ∧
    (262144 * Minute + 59 * Second + 999999999) / Minute = 262144 ∧
    (262144 : Int) / 60 = 4369 ∧ (262144 : Int) % 60 = 4 ∧
    formatDuration (262144 * Minute + 59 * Second + 999999999) = "4369год 5хв" :=
  ⟨by decide, by decide, by decide, by decide, by decide, by decide, by decide, by decide,
   by decide⟩

end PowerMonitor
